import Mathlib

/-!
Cortex host adapters: converter factory, attribute transfer and procedural bindings.

A shallow embedding of

* `src/IECoreHoudini/ToHoudiniGeometryConverter.cpp`
* `src/IECoreScene/bindings/ParameterisedProceduralBinding.cpp`

Host calls (the Houdini SDK, the Python interpreter, other Cortex libraries) are
taken as parameters; the control flow around them follows the C++ text.
-/

set_option autoImplicit false

/-! ## Converter factory (`ToHoudiniGeometryConverter::create`) -/

namespace IECoreHoudini

/-- The integer value of an `IECore::TypeId`. -/
abbrev TypeId := Nat

/-- The nested class `ToHoudiniGeometryConverter::Types`, the key of the factory map. -/
structure Types where
  fromType : TypeId
  deriving DecidableEq, Repr

/-- The comparison `Types::operator <`. -/
def Types.lt (self other : Types) : Bool :=
  decide (self.fromType < other.fromType)

/-- The run-time type interface of `IECore::Object` used by the factory:
`object->typeId()` and `RunTimeTyped::baseTypeIds`. Both live outside the
translated file and are taken as given. -/
structure RunTimeTyped (Object : Type) where
  typeId : Object → TypeId
  baseTypeIds : TypeId → List TypeId

/-- A `CreatorFn`: builds a converter for an object; `none` is the null pointer. -/
abbrev CreatorFn (Object Converter : Type) := Object → Option Converter

/-- The `TypesToFnsMap` (a `std::map< Types, CreatorFn >`) as its entries in iteration order. -/
abbrev TypesToFnsMap (Object Converter : Type) := List (Types × CreatorFn Object Converter)

/-- The lookup `std::map::find`: the entry whose key is equivalent to `k` under
`Types::operator <` (neither is less than the other); `none` stands for `end()`. -/
def TypesToFnsMap.find {Object Converter : Type} :
    TypesToFnsMap Object Converter → Types → Option (CreatorFn Object Converter)
  | [], _ => none
  | (k', fn) :: rest, k =>
    if !(k'.lt k) && !(k.lt k') then some fn else TypesToFnsMap.find rest k

/-- The insertion `std::map::insert`: keeps the entries ordered by key and leaves
the map unchanged when an equivalent key is already present. -/
def TypesToFnsMap.insert {Object Converter : Type} :
    TypesToFnsMap Object Converter → Types → CreatorFn Object Converter →
      TypesToFnsMap Object Converter
  | [], k, fn => [(k, fn)]
  | (k', fn') :: rest, k, fn =>
    if k.lt k' then (k, fn) :: (k', fn') :: rest
    else if k'.lt k then (k', fn') :: TypesToFnsMap.insert rest k fn
    else (k', fn') :: rest

/-- The registration `ToHoudiniGeometryConverter::registerConverter`. -/
def registerConverter {Object Converter : Type} (m : TypesToFnsMap Object Converter)
    (fromType : TypeId) (creator : CreatorFn Object Converter) :
    TypesToFnsMap Object Converter :=
  m.insert (Types.mk fromType) creator

/-- The base class loop of `ToHoudiniGeometryConverter::create`: the first base
type with a registered creator decides; `none` is the final `return 0`. -/
def createFromBases {Object Converter : Type} (m : TypesToFnsMap Object Converter)
    (object : Object) : List TypeId → Option Converter
  | [] => none
  | b :: bases =>
    match m.find (Types.mk b) with
    | some fn => fn object
    | none => createFromBases m object bases

/-- The factory `ToHoudiniGeometryConverter::create`. -/
def create {Object Converter : Type} (rtt : RunTimeTyped Object)
    (m : TypesToFnsMap Object Converter) (object : Object) : Option Converter :=
  match m.find (Types.mk (rtt.typeId object)) with
  | some fn => fn object
  | none => createFromBases m object (rtt.baseTypeIds (rtt.typeId object))

/-! ## Attribute names -/

/-- The renaming `ToHoudiniGeometryConverter::processPrimitiveVariableName`. -/
def processPrimitiveVariableName (name : String) : String :=
  if name = "Cs" then "Cd"
  else if name = "Os" then "Alpha"
  else if name = "Pref" then "rest"
  else if name = "width" then "pscale"
  else name

/-! ## Attribute transfer (`ToHoudiniGeometryConverter::transferAttribValues`) -/

/-- The integer value of a `PrimitiveVariable::Interpolation`. -/
abbrev Interpolation := Nat

/-- The integer value of a `GeometricData::Interpretation`. -/
abbrev Interpretation := Nat

/-- A Houdini `GA_Offset`. -/
abbrev GA_Offset := Nat

/-- The `IECore::Data` held by a primitive variable, by the dynamic types the converter
tells apart: `runTimeCast<const V2fVectorData>` succeeds on the first constructor only and
`typeId() == StringVectorDataTypeId` holds on the third only. `F` stands for `float`. -/
inductive Data (F : Type) where
  | V2fVectorData (interpretation : Interpretation) (readable : List (F × F))
  | V3fVectorData (interpretation : Interpretation) (readable : List (F × F × F))
  | StringVectorData (readable : List String)
  | other (typeId : TypeId)
  deriving DecidableEq, Repr

/-- A `PrimitiveVariable`: interpolation, data and optional indices. -/
structure PrimitiveVariable (F : Type) where
  interpolation : Interpolation
  data : Data F
  indices : Option (List Int)
  deriving DecidableEq, Repr

/-- The part of a `Primitive` the converter reads: its member `variables` (a `std::map`,
given by its entries in iteration order; the field is called `primitiveVariables` here
because `variables` is not available as a name) and the `StringData` member "name" of its
blind data, if any. -/
structure Primitive (F : Type) where
  primitiveVariables : List (String × PrimitiveVariable F)
  blindDataName : Option String

/-- The index map a `GA_Range` runs over. -/
inductive GA_IndexMap where
  | points
  | primitives
  | vertices
  deriving DecidableEq, Repr

/-- A `GA_Range`: its index map (`none` for a default-constructed range) and the offsets
it iterates over, in order. -/
structure GA_Range where
  indexMap : Option GA_IndexMap
  offsets : List GA_Offset
  deriving DecidableEq, Repr

/-- The test `GA_Range::isValid`. -/
def GA_Range.isValid (r : GA_Range) : Bool := r.indexMap.isSome

/-- What the converter reads of a `GA_Primitive`. -/
structure GA_Primitive where
  /-- Whether `getTypeId() == GEO_PRIMPOLY`. -/
  isPoly : Bool
  /-- The values `getVertexOffset( 0 ) .. getVertexOffset( getVertexCount() - 1 )`. -/
  vertexOffsets : List GA_Offset

/-- What the converter reads of the `GU_Detail`: its primitive list. -/
structure GU_Detail where
  primitiveList : GA_Offset → GA_Primitive

/-- A `ToHoudiniAttribConverter` as handed out by its factory: the data it converts,
whether it is a `ToHoudiniStringVectorAttribConverter`, and its indices parameter. -/
structure ToHoudiniAttribConverter (F : Type) where
  srcData : Data F
  isStringVector : Bool
  indices : Option (List Int)
  deriving DecidableEq, Repr

/-- A call that changes the Houdini geometry. `source` is the name of the primitive
variable on whose behalf the call is made. -/
inductive HostCall (F : Type) where
  /-- The call `converter->convert( name, geo )` (no range: a detail attribute) or
  `converter->convert( name, geo, range )`. -/
  | convert (source : String) (converter : ToHoudiniAttribConverter F) (name : String)
      (range : Option GA_Range)
  /-- The marking of the attribute just written as non transforming
  (`setTypeInfo( GA_TYPE_VOID )`, or `setNonTransforming( true )` before Houdini 15). -/
  | setNonTransforming (source : String) (name : String)
  /-- The call `geo->setPos3( offset, pos )` made by `transferP`. -/
  | setPos3 (source : String) (offset : GA_Offset) (pos : F × F × F)
  /-- The call `ToHoudiniStringVectorAttribConverter::convertString( name, value, geo, range )`. -/
  | convertString (name : String) (value : String) (range : GA_Range)
  deriving DecidableEq, Repr

/-- A message sent through `IECore::msg` at `Warning` level. -/
structure Warning where
  context : String
  message : String
  deriving DecidableEq, Repr

/-- The effects of a conversion so far: the host calls that went through, oldest first,
and the warnings emitted. -/
structure Effects (F : Type) where
  calls : List (HostCall F)
  messages : List Warning
  deriving DecidableEq, Repr

/-- How a conversion can end early. -/
inductive Failure where
  /-- A C++ exception leaves the function, with its `what()`. -/
  | exception (what : String)
  /-- A call through a null `ToHoudiniAttribConverterPtr`. -/
  | nullDereference
  deriving DecidableEq, Repr

/-- Everything the translated file calls but does not define: the Houdini SDK and the
other Cortex libraries. -/
structure Host (F : Type) where
  /-- The build constant `UT_MAJOR_VERSION_INT`. -/
  UT_MAJOR_VERSION_INT : Nat
  /-- The enumerator `GeometricData::UV`. -/
  UV : Interpretation
  /-- The test `UT_String( name ).multiMatch( pattern )`; a pattern compiled into a
  `UT_StringMMPattern` matches as its text does. -/
  multiMatch : String → String → Bool
  /-- The method `Primitive::isPrimitiveVariableValid`. -/
  isPrimitiveVariableValid : Primitive F → PrimitiveVariable F → Bool
  /-- The elements of a `PrimitiveVariable::IndexedView<Imath::V2f>`, in order. -/
  indexedView : PrimitiveVariable F → List (F × F)
  /-- The method `PrimitiveVariable::expandedData`. -/
  expandedData : PrimitiveVariable F → Data F
  /-- The factory `ToHoudiniAttribConverter::create`; `none` is a null pointer. -/
  create : Data F → Option (ToHoudiniAttribConverter F)
  /-- Whether a `convert` or `convertString` call throws on the geometry as left by the
  calls before it, and with which `what()`. -/
  throws : List (HostCall F) → HostCall F → Option String

/-- The three parameters added by the `ToHoudiniGeometryConverter` constructor, with
their default values. -/
structure ToHoudiniGeometryConverter where
  name : String := ""
  attributeFilter : String := "*"
  convertStandardAttributes : Bool := true

/-- The default arguments of `transferAttribValues`, declared in the header. -/
structure DefaultInterpolations where
  vertexInterpolation : Interpolation
  primitiveInterpolation : Interpolation
  pointInterpolation : Interpolation
  detailInterpolation : Interpolation

section transfer

variable {F : Type}

/-- Records a host call that went through. -/
def Effects.record (e : Effects F) (c : HostCall F) : Effects F :=
  { e with calls := e.calls ++ [c] }

/-- Records a warning sent through `IECore::msg`. -/
def Effects.warn (e : Effects F) (context message : String) : Effects F :=
  { e with messages := e.messages ++ [Warning.mk context message] }

/-- A C++ loop over `items` whose body may leave the function with an exception: the
body runs on each item in turn until one fails. -/
def forEach {α σ : Type} (body : α → σ → σ × Option Failure) : List α → σ → σ × Option Failure
  | [], s => (s, none)
  | a :: rest, s =>
    match body a s with
    | (s', some failure) => (s', some failure)
    | (s', none) => forEach body rest s'

/-- The vertex offsets of one primitive as appended to `offsets` (lines 195 to 207):
reversed for polygons. -/
def windingOffsets (prim : GA_Primitive) : List GA_Offset :=
  if prim.isPoly then prim.vertexOffsets.reverse else prim.vertexOffsets

/-- The vertex range `vertRange` built at the top of `transferAttribValues`. -/
def vertRange (geo : GU_Detail) (prims : GA_Range) : GA_Range :=
  GA_Range.mk (some GA_IndexMap.vertices)
    (if prims.isValid then prims.offsets.flatMap (fun offset => windingOffsets (geo.primitiveList offset))
     else [])

/-- The virtual `ToHoudiniGeometryConverter::processPrimitiveVariable` of the base class. -/
def processPrimitiveVariable (_primitive : Primitive F) (primVar : PrimitiveVariable F) :
    PrimitiveVariable F :=
  primVar

/-- The body of the first loop of `transferAttribValues` (lines 219 to 276), run on one
entry `it` of `primitive->variables`. The state is the filter text and the effects. -/
def uvPassBody [Zero F] (h : Host F) (points prims vertRange : GA_Range)
    (vertexInterpolation primitiveInterpolation pointInterpolation : Interpolation)
    (it : String × PrimitiveVariable F) (s : String × Effects F) :
    (String × Effects F) × Option Failure :=
  if !(h.multiMatch it.1 s.1) then (s, none)
  else
    match it.2.data with
    | Data.V2fVectorData interpretation _ =>
      if interpretation ≠ h.UV then (s, none)
      else
        let uvw := (h.indexedView it.2).map (fun uv => (uv.1, uv.2, (0 : F)))
        let range : Option GA_Range :=
          if it.2.interpolation = pointInterpolation then some points
          else if it.2.interpolation = primitiveInterpolation then some prims
          else if it.2.interpolation = vertexInterpolation then some vertRange
          else none
        match range with
        | none =>
          ((s.1, s.2.warn "ToHoudiniGeometryConverter"
            ("UV PrimitiveVariable '" ++ it.1 ++ "' has invalid interpolation. Ignoring.")), none)
        | some range =>
          match h.create (Data.V3fVectorData h.UV uvw) with
          | none => (s, some Failure.nullDereference)
          | some converter =>
            match h.throws s.2.calls (HostCall.convert it.1 converter it.1 (some range)) with
            | some what => (s, some (Failure.exception what))
            | none =>
              ((s.1 ++ " ^" ++ it.1,
                s.2.record (HostCall.convert it.1 converter it.1 (some range))), none)
    | _ => (s, none)

/-- The converter chosen for a primitive variable in the second loop (lines 299 to 316). -/
def attribConverter (h : Host F) (primVar : PrimitiveVariable F) :
    Option (ToHoudiniAttribConverter F) :=
  match primVar.indices, primVar.data with
  | some indices, Data.StringVectorData readable =>
    match h.create (Data.StringVectorData readable) with
    | some converter =>
      if converter.isStringVector then some { converter with indices := some indices }
      else some converter
    | none => none
  | _, _ => h.create (h.expandedData primVar)

/-- One guarded `converter->convert` of the second loop: a `std::exception` from the host
is rethrown as an `IECore::Exception` naming the variable and the attribute class. -/
def guardedConvert (h : Host F) (source attribClass : String) (c : HostCall F)
    (e : Effects F) : Effects F × Option Failure :=
  match h.throws e.calls c with
  | some what =>
    (e, some (Failure.exception
      ("PrimitiveVariable \"" ++ source ++ "\" could not be converted as a " ++ attribClass ++
        " Attrib: " ++ what)))
  | none => (e.record c, none)

/-- The method `ToHoudiniGeometryConverter::transferP`: one `setPos3` per point of the
range. Reading `pos[i]` past the end is undefined in C++; the model stops there. -/
def transferP (source : String) (positions : Option (List (F × F × F))) (points : GA_Range)
    (e : Effects F) : Effects F :=
  match positions with
  | none => e
  | some pos =>
    { e with calls := e.calls ++
        (points.offsets.zip pos).map (fun op => HostCall.setPos3 source op.1 op.2) }

/-- The cast `runTimeCast<const V3fVectorData>( data )` followed by `readable()`. -/
def asV3fVectorData (data : Data F) : Option (List (F × F × F)) :=
  match data with
  | Data.V3fVectorData _ readable => some readable
  | _ => none

/-- The point branch of the second loop (lines 337 to 378). -/
def convertPointAttrib (h : Host F) (source : String) (primVar : PrimitiveVariable F)
    (converter : ToHoudiniAttribConverter F) (name : String) (points : GA_Range)
    (e : Effects F) : Effects F × Option Failure :=
  if h.UT_MAJOR_VERSION_INT < 15 ∧ name = "P" then
    (transferP source (asV3fVectorData primVar.data) points e, none)
  else
    match guardedConvert h source "Point" (HostCall.convert source converter name (some points)) e with
    | (e', some failure) => (e', some failure)
    | (e', none) =>
      if name = "rest" ∨ name = "Pref" then
        (e'.record (HostCall.setNonTransforming source name), none)
      else (e', none)

/-- The body of the second loop of `transferAttribValues` (lines 283 to 403), run on one
entry `it` of `primitive->variables`. -/
def generalPassBody (h : Host F) (primitive : Primitive F) (convertStandardAttributes : Bool)
    (attribFilter : String) (points prims vertRange : GA_Range)
    (vertexInterpolation primitiveInterpolation pointInterpolation detailInterpolation :
      Interpolation)
    (it : String × PrimitiveVariable F) (e : Effects F) : Effects F × Option Failure :=
  if !(h.isPrimitiveVariableValid primitive it.2) then
    (e.warn "ToHoudiniGeometryConverter" ("PrimitiveVariable " ++ it.1 ++ " is invalid. Ignoring."),
      none)
  else if !(h.multiMatch it.1 attribFilter) then (e, none)
  else
    let primVar := processPrimitiveVariable primitive it.2
    match attribConverter h primVar with
    | none => (e, none)
    | some converter =>
      let name := if convertStandardAttributes then processPrimitiveVariableName it.1 else it.1
      if primVar.interpolation = detailInterpolation then
        guardedConvert h it.1 "Detail" (HostCall.convert it.1 converter name none) e
      else if primVar.interpolation = pointInterpolation then
        convertPointAttrib h it.1 primVar converter name points e
      else if primVar.interpolation = primitiveInterpolation then
        guardedConvert h it.1 "Primitive" (HostCall.convert it.1 converter name (some prims)) e
      else if primVar.interpolation = vertexInterpolation then
        guardedConvert h it.1 "Vertex" (HostCall.convert it.1 converter name (some vertRange)) e
      else (e, none)

/-- The first loop of `transferAttribValues`: all primitive variables with UV interpretation. -/
def uvPass [Zero F] (h : Host F) (primitive : Primitive F) (points prims vertRange : GA_Range)
    (vertexInterpolation primitiveInterpolation pointInterpolation : Interpolation)
    (s : String × Effects F) : (String × Effects F) × Option Failure :=
  forEach (uvPassBody h points prims vertRange vertexInterpolation primitiveInterpolation
    pointInterpolation) primitive.primitiveVariables s

/-- The second loop of `transferAttribValues`: primitive variables by interpolation. -/
def generalPass (h : Host F) (primitive : Primitive F) (convertStandardAttributes : Bool)
    (attribFilter : String) (points prims vertRange : GA_Range)
    (vertexInterpolation primitiveInterpolation pointInterpolation detailInterpolation :
      Interpolation)
    (e : Effects F) : Effects F × Option Failure :=
  forEach (generalPassBody h primitive convertStandardAttributes attribFilter points prims
    vertRange vertexInterpolation primitiveInterpolation pointInterpolation detailInterpolation)
    primitive.primitiveVariables e

/-- The unguarded call `ToHoudiniStringVectorAttribConverter::convertString( "name", .. )`. -/
def convertName (h : Host F) (value : String) (prims : GA_Range) (e : Effects F) :
    Effects F × Option Failure :=
  match h.throws e.calls (HostCall.convertString "name" value prims) with
  | some what => (e, some (Failure.exception what))
  | none => (e.record (HostCall.convertString "name" value prims), none)

/-- The method `ToHoudiniGeometryConverter::transferAttribValues`. -/
def transferAttribValues [Zero F] (h : Host F) (self : ToHoudiniGeometryConverter)
    (primitive : Primitive F) (geo : GU_Detail) (points prims : GA_Range)
    (vertexInterpolation primitiveInterpolation pointInterpolation detailInterpolation :
      Interpolation)
    (e : Effects F) : Effects F × Option Failure :=
  match uvPass h primitive points prims (vertRange geo prims) vertexInterpolation
      primitiveInterpolation pointInterpolation (self.attributeFilter, e) with
  | ((_, e1), some failure) => (e1, some failure)
  | ((filter, e1), none) =>
    match generalPass h primitive self.convertStandardAttributes filter points prims
        (vertRange geo prims) vertexInterpolation primitiveInterpolation pointInterpolation
        detailInterpolation e1 with
    | (e2, some failure) => (e2, some failure)
    | (e2, none) =>
      match primitive.blindDataName with
      | some nameData => if prims.isValid then convertName h nameData prims e2 else (e2, none)
      | none => (e2, none)

/-- The method `ToHoudiniGeometryConverter::setName`. -/
def setName (h : Host F) (self : ToHoudiniGeometryConverter) (prims : GA_Range)
    (e : Effects F) : Effects F × Option Failure :=
  if self.name ≠ "" ∧ prims.isValid then convertName h self.name prims e else (e, none)

/-- The method `ToHoudiniGeometryConverter::transferAttribs`; `src` is the source object
cast to a `Primitive` (`none` when the cast fails). -/
def transferAttribs [Zero F] (h : Host F) (self : ToHoudiniGeometryConverter)
    (defaults : DefaultInterpolations) (src : Option (Primitive F)) (geo : GU_Detail)
    (points prims : GA_Range) (e : Effects F) : Effects F × Option Failure :=
  match src with
  | some primitive =>
    match transferAttribValues h self primitive geo points prims defaults.vertexInterpolation
        defaults.primitiveInterpolation defaults.pointInterpolation
        defaults.detailInterpolation e with
    | (e1, some failure) => (e1, some failure)
    | (e1, none) => setName h self prims e1
  | none => setName h self prims e

/-- The primitive variable on whose behalf a host call is made, if any. -/
def HostCall.sourceOf : HostCall F → Option String
  | HostCall.convert source _ _ _ => some source
  | HostCall.setNonTransforming source _ => some source
  | HostCall.setPos3 source _ _ => some source
  | HostCall.convertString _ _ _ => none

/-- The name of the attribute a host call creates, if it creates one. -/
def HostCall.attribute : HostCall F → Option String
  | HostCall.convert _ _ name _ => some name
  | HostCall.setNonTransforming _ _ => none
  | HostCall.setPos3 _ _ _ => none
  | HostCall.convertString name _ _ => some name

/-- Whether the first loop takes a primitive variable for a UV set (lines 227 to 232):
`V2fVectorData` with `GeometricData::UV` interpretation. -/
def isUVVariable (h : Host F) (primVar : PrimitiveVariable F) : Bool :=
  match primVar.data with
  | Data.V2fVectorData interpretation _ => decide (interpretation = h.UV)
  | _ => false

/-- The filter text after the first loop has appended the exclusions of the names `us`
to `base`, one ` ^name` at a time (line 274). -/
def excludeAll (base : String) (us : List String) : String :=
  us.foldl (fun filter u => filter ++ " ^" ++ u) base

/-- Whether a host call is a `converter->convert` made for the primitive variable `n`. -/
def HostCall.convertsFor (n : String) : HostCall F → Bool
  | HostCall.convert source _ _ _ => decide (source = n)
  | _ => false

/-- The interpolation routing in the words of the specification: the attribute owner is
chosen by priority, detail (`some none`, no range) first, then point over the points range,
then primitive over the prims range, then vertex over the vertex range; `none` when the
interpolation is none of the four. -/
def routedRange (interpolation : Interpolation)
    (detailInterpolation pointInterpolation primitiveInterpolation vertexInterpolation :
      Interpolation)
    (points prims vertRange : GA_Range) : Option (Option GA_Range) :=
  if interpolation = detailInterpolation then some none
  else if interpolation = pointInterpolation then some (some points)
  else if interpolation = primitiveInterpolation then some (some prims)
  else if interpolation = vertexInterpolation then some (some vertRange)
  else none

/-- The attribute owners a primitive variable can be written to. -/
inductive AttribOwner where
  | detail
  | point
  | primitive
  | vertex
  deriving DecidableEq, Repr

/-- The owner chosen for an interpolation, in the words of the specification: detail if
it equals `detailInterpolation`, else point if it equals `pointInterpolation`, else
primitive if it equals `primitiveInterpolation`, else vertex if it equals
`vertexInterpolation`, and no owner when it equals none of the four. -/
def routedOwner (interpolation : Interpolation)
    (detailInterpolation pointInterpolation primitiveInterpolation vertexInterpolation :
      Interpolation) : Option AttribOwner :=
  if interpolation = detailInterpolation then some AttribOwner.detail
  else if interpolation = pointInterpolation then some AttribOwner.point
  else if interpolation = primitiveInterpolation then some AttribOwner.primitive
  else if interpolation = vertexInterpolation then some AttribOwner.vertex
  else none

/-- The range an owner is written over; `none` for detail, which takes no range. -/
def AttribOwner.range (points prims vertRange : GA_Range) : AttribOwner → Option GA_Range
  | AttribOwner.detail => none
  | AttribOwner.point => some points
  | AttribOwner.primitive => some prims
  | AttribOwner.vertex => some vertRange

/-- What the amended specification expects of the one conversion made on the chosen
owner: when the host call goes through, the call and the marks that follow it are the
only new effects; when it throws, nothing is written and an exception naming the
variable and the attribute class leaves the function. -/
def expectedConversion (h : Host F) (e : Effects F) (n attribClass : String)
    (c : HostCall F) (marks : List (HostCall F)) : Effects F × Option Failure :=
  match h.throws e.calls c with
  | none => (Effects.mk (e.calls ++ c :: marks) e.messages, none)
  | some what =>
    (e, some (Failure.exception
      ("PrimitiveVariable \"" ++ n ++ "\" could not be converted as a " ++ attribClass ++
        " Attrib: " ++ what)))

/-- What the amended specification expects of the second loop on a valid, filter-matched
variable `it` with the converter `converter`: one conversion on the owner chosen by
priority, over no range for detail, the points range for point, the prims range for
primitive and the vertex range for vertex; a point attribute called rest or Pref is then
marked as non transforming; before Houdini 15 a point attribute called P is not converted
but copied into the point positions when its data is `V3fVectorData`, and dropped
otherwise; with no owner nothing happens. -/
def expectedRouting (h : Host F) (convertStandardAttributes : Bool)
    (points prims vertRange : GA_Range)
    (vertexInterpolation primitiveInterpolation pointInterpolation detailInterpolation :
      Interpolation)
    (it : String × PrimitiveVariable F) (converter : ToHoudiniAttribConverter F)
    (e : Effects F) : Effects F × Option Failure :=
  let name := if convertStandardAttributes then processPrimitiveVariableName it.1 else it.1
  match routedOwner it.2.interpolation detailInterpolation pointInterpolation
      primitiveInterpolation vertexInterpolation with
  | none => (e, none)
  | some AttribOwner.detail =>
    expectedConversion h e it.1 "Detail" (HostCall.convert it.1 converter name none) []
  | some AttribOwner.point =>
    if h.UT_MAJOR_VERSION_INT < 15 ∧ name = "P" then
      match it.2.data with
      | Data.V3fVectorData _ pos =>
        (Effects.mk
          (e.calls ++ (points.offsets.zip pos).map (fun op => HostCall.setPos3 it.1 op.1 op.2))
          e.messages, none)
      | _ => (e, none)
    else
      expectedConversion h e it.1 "Point" (HostCall.convert it.1 converter name (some points))
        (if name = "rest" ∨ name = "Pref" then [HostCall.setNonTransforming it.1 name] else [])
  | some AttribOwner.primitive =>
    expectedConversion h e it.1 "Primitive" (HostCall.convert it.1 converter name (some prims))
      []
  | some AttribOwner.vertex =>
    expectedConversion h e it.1 "Vertex"
      (HostCall.convert it.1 converter name (some vertRange)) []

end transfer

/-! ### A sample host

A small stand-in for the Houdini side, used to run the converter on concrete inputs. -/

/-- The pattern text cut at blanks. -/
def sampleTokens : List Char → List (List Char)
  | [] => [[]]
  | c :: cs =>
    match sampleTokens cs with
    | [] => [[c]]
    | t :: ts => if c = ' ' then [] :: t :: ts else (c :: t) :: ts

/-- One pattern token applied to a name: `*` and the name itself include it, the same
behind a `^` exclude it, anything else leaves the verdict so far. -/
def sampleToken (name : List Char) (verdict : Bool) (token : List Char) : Bool :=
  match token with
  | '^' :: t => if t = ['*'] ∨ t = name then false else verdict
  | t => if t = ['*'] ∨ t = name then true else verdict

/-- A cut-down Houdini pattern match: tokens are applied from left to right. -/
def sampleMultiMatch (name pattern : String) : Bool :=
  (sampleTokens pattern.data).foldl (sampleToken name.data) false

/-- A host on integer coordinates, built against Houdini 17, whose conversions never throw
and whose attribute converter factory knows every data type; `valid` decides which
primitive variables count as valid. -/
def sampleHost (valid : PrimitiveVariable Int → Bool) : Host Int where
  UT_MAJOR_VERSION_INT := 17
  UV := 5
  multiMatch := sampleMultiMatch
  isPrimitiveVariableValid := fun _ primVar => valid primVar
  indexedView := fun primVar =>
    match primVar.data, primVar.indices with
    | Data.V2fVectorData _ readable, none => readable
    | Data.V2fVectorData _ readable, some indices =>
      indices.map (fun i => readable.getD i.toNat (0, 0))
    | _, _ => []
  expandedData := fun primVar => primVar.data
  create := fun data =>
    some (ToHoudiniAttribConverter.mk data
      (match data with
        | Data.StringVectorData _ => true
        | _ => false) none)
  throws := fun _ _ => none

/-- The sample host built against Houdini 14. -/
def legacyHost : Host Int :=
  { sampleHost (fun _ => true) with UT_MAJOR_VERSION_INT := 14 }

/-- The sample host with a geometry on which every conversion throws "locked". -/
def throwingHost : Host Int :=
  { sampleHost (fun _ => true) with throws := fun _ _ => some "locked" }

/-- The interpolations `transferAttribs` passes on: FaceVarying, Uniform, Vertex, Constant. -/
def sampleDefaults : DefaultInterpolations :=
  DefaultInterpolations.mk 5 2 3 1

/-- A detail with no primitives of interest: every offset holds an empty polygon. -/
def sampleGeo : GU_Detail :=
  GU_Detail.mk (fun _ => GA_Primitive.mk true [])

/-- A range over the first two points. -/
def samplePoints : GA_Range := GA_Range.mk (some GA_IndexMap.points) [0, 1]

/-- A range over the first primitive. -/
def samplePrims : GA_Range := GA_Range.mk (some GA_IndexMap.primitives) [0]

end IECoreHoudini

/-! ## Python bindings of `ParameterisedProcedural` -/

namespace IECoreSceneModule

/-- An `IECore::Exception` with its message. -/
structure Exception where
  what : String
  deriving DecidableEq, Repr

/-- The part of `CompoundParameter` the binding uses: `parameter<Parameter>( n )`,
which yields the child parameter of that name or a null pointer (`none`). -/
structure CompoundParameter (Parameter : Type) where
  parameter : String → Option Parameter

/-- The part of `ParameterisedProcedural` the binding uses. -/
structure ParameterisedProcedural (Parameter : Type) where
  parameters : CompoundParameter Parameter

/-- The function `parameterisedProceduralGetItem`, bound as `__getitem__`. The result is
the returned `ParameterPtr` (`none` would be a null pointer) or the exception thrown. -/
def parameterisedProceduralGetItem {Parameter : Type} (o : ParameterisedProcedural Parameter)
    (n : String) : Except Exception (Option Parameter) :=
  let p := o.parameters.parameter n
  if p.isNone then
    Except.error (Exception.mk ("Parameter " ++ n ++ " doesn't exist"))
  else
    Except.ok p

end IECoreSceneModule

/-! ## Theorems -/

namespace IECoreSceneModule

/-- C8: `__getitem__` returns the parameter named `n` when the procedural has one, raises
the exception with message "Parameter n doesn't exist" exactly when it has none, and
never returns a null parameter. -/
theorem parameterisedProceduralGetItem_spec {Parameter : Type}
    (o : ParameterisedProcedural Parameter) (n : String) :
    (∀ p, o.parameters.parameter n = some p →
        parameterisedProceduralGetItem o n = Except.ok (some p)) ∧
    ((∃ e, parameterisedProceduralGetItem o n = Except.error e) ↔
        o.parameters.parameter n = none) ∧
    (∀ e, parameterisedProceduralGetItem o n = Except.error e →
        e.what = "Parameter " ++ n ++ " doesn't exist") ∧
    parameterisedProceduralGetItem o n ≠ Except.ok none := by
  unfold parameterisedProceduralGetItem
  cases h : o.parameters.parameter n with
  | none => simp
  | some p => simp

/-- C8, at a procedural with the single parameter "radius": `__getitem__` returns it. -/
theorem parameterisedProceduralGetItem_spec_witness :
    parameterisedProceduralGetItem
      (ParameterisedProcedural.mk
        (CompoundParameter.mk (fun n => if n = "radius" then some (7 : Nat) else none)))
      "radius" = Except.ok (some 7) :=
  (parameterisedProceduralGetItem_spec
    (ParameterisedProcedural.mk
      (CompoundParameter.mk (fun n => if n = "radius" then some (7 : Nat) else none)))
    "radius").1 7 (by decide)

end IECoreSceneModule

namespace IECoreHoudini

/-- C2: `create` returns what the creator registered for the exact type id returns when
there is one; otherwise what the creator of the first registered base type, in the order
of `baseTypeIds`, returns; and a null pointer when no type is registered. -/
theorem create_dispatch {Object Converter : Type} (rtt : RunTimeTyped Object)
    (m : TypesToFnsMap Object Converter) (object : Object) :
    (∀ fn, m.find (Types.mk (rtt.typeId object)) = some fn → create rtt m object = fn object) ∧
    (m.find (Types.mk (rtt.typeId object)) = none →
      ∀ before b after fn, rtt.baseTypeIds (rtt.typeId object) = before ++ b :: after →
        (∀ t ∈ before, m.find (Types.mk t) = none) → m.find (Types.mk b) = some fn →
        create rtt m object = fn object) ∧
    (m.find (Types.mk (rtt.typeId object)) = none →
      (∀ t ∈ rtt.baseTypeIds (rtt.typeId object), m.find (Types.mk t) = none) →
      create rtt m object = none) := by
  refine ⟨?_, ?_, ?_⟩
  · intro fn hfn
    simp [create, hfn]
  · intro hnone before b after fn hsplit hbefore hb
    simp only [create, hnone, hsplit]
    clear hsplit
    induction before with
    | nil => simp [createFromBases, hb]
    | cons t ts ih =>
      have ht : m.find (Types.mk t) = none := hbefore t (List.mem_cons_self _ _)
      simp only [List.cons_append, createFromBases, ht]
      exact ih (fun t' ht' => hbefore t' (List.mem_cons_of_mem _ ht'))
  · intro hnone hall
    simp only [create, hnone]
    generalize rtt.baseTypeIds (rtt.typeId object) = bases at hall
    induction bases with
    | nil => rfl
    | cons t ts ih =>
      have ht : m.find (Types.mk t) = none := hall t (List.mem_cons_self _ _)
      simp only [createFromBases, ht]
      exact ih (fun t' ht' => hall t' (List.mem_cons_of_mem _ ht'))

section lemmas

variable {F : Type}

@[simp] theorem Effects.calls_record (e : Effects F) (c : HostCall F) :
    (e.record c).calls = e.calls ++ [c] := rfl

@[simp] theorem Effects.calls_warn (e : Effects F) (context message : String) :
    (e.warn context message).calls = e.calls := rfl

/-- A guarded conversion either records its call or throws and leaves the effects alone. -/
theorem guardedConvert_cases (h : Host F) (source attribClass : String) (c : HostCall F)
    (e : Effects F) :
    (h.throws e.calls c = none ∧ guardedConvert h source attribClass c e = (e.record c, none)) ∨
    (∃ what, h.throws e.calls c = some what ∧
      guardedConvert h source attribClass c e = (e, some (Failure.exception
        ("PrimitiveVariable \"" ++ source ++ "\" could not be converted as a " ++ attribClass ++
          " Attrib: " ++ what)))) := by
  unfold guardedConvert
  cases hthrows : h.throws e.calls c with
  | none => exact Or.inl ⟨rfl, rfl⟩
  | some what => exact Or.inr ⟨what, rfl, rfl⟩

theorem forEach_cons_failure {α σ : Type} (body : α → σ → σ × Option Failure) (a : α)
    (rest : List α) (s s' : σ) (f : Failure) (hb : body a s = (s', some f)) :
    forEach body (a :: rest) s = (s', some f) := by
  simp [forEach, hb]

theorem forEach_cons_ok {α σ : Type} (body : α → σ → σ × Option Failure) (a : α)
    (rest : List α) (s s' : σ) (hb : body a s = (s', none)) :
    forEach body (a :: rest) s = forEach body rest s' := by
  simp [forEach, hb]

/-- The calls of a loop are those of its bodies: if every body run appends calls that
satisfy `P` for its item, and keeps the invariant, so does the loop. -/
theorem forEach_calls {α σ : Type} (calls : σ → List (HostCall F)) (Inv : σ → Prop)
    (P : α → HostCall F → Prop) (body : α → σ → σ × Option Failure) (items : List α)
    (hbody : ∀ a ∈ items, ∀ s, Inv s →
      Inv (body a s).1 ∧ ∃ new, calls (body a s).1 = calls s ++ new ∧ ∀ c ∈ new, P a c)
    (s : σ) (hs : Inv s) :
    Inv (forEach body items s).1 ∧
    ∃ new, calls (forEach body items s).1 = calls s ++ new ∧
      ∀ c ∈ new, ∃ a ∈ items, P a c := by
  induction items generalizing s with
  | nil => exact ⟨hs, [], by simp [forEach], by simp⟩
  | cons a rest ih =>
    obtain ⟨hinv, new, hnew, hP⟩ := hbody a (List.mem_cons_self _ _) s hs
    unfold forEach
    cases hb : body a s with
    | mk s' failure =>
      rw [hb] at hinv hnew
      cases failure with
      | some f =>
        refine ⟨hinv, new, hnew, fun c hc => ⟨a, List.mem_cons_self _ _, hP c hc⟩⟩
      | none =>
        obtain ⟨hinv', new', hnew', hP'⟩ :=
          ih (fun a' ha' => hbody a' (List.mem_cons_of_mem _ ha')) s' hinv
        refine ⟨hinv', new ++ new', ?_, ?_⟩
        · simp only [hnew'] at *
          rw [hnew, List.append_assoc]
        · intro c hc
          rcases List.mem_append.mp hc with hc | hc
          · exact ⟨a, List.mem_cons_self _ _, hP c hc⟩
          · obtain ⟨a', ha', hPa'⟩ := hP' c hc
            exact ⟨a', List.mem_cons_of_mem _ ha', hPa'⟩

/-- The calls of a guarded conversion: none, or the one call. -/
theorem guardedConvert_calls (h : Host F) (source attribClass : String) (c : HostCall F)
    (e : Effects F) :
    ∃ new, (guardedConvert h source attribClass c e).1.calls = e.calls ++ new ∧
      ∀ c' ∈ new, c' = c := by
  rcases guardedConvert_cases h source attribClass c e with ⟨-, hr⟩ | ⟨what, -, hr⟩
  · exact ⟨[c], by simp [hr], by simp⟩
  · exact ⟨[], by simp [hr], by simp⟩

/-- The calls of the point branch are made for `source` and create no attribute but `name`. -/
theorem convertPointAttrib_calls (h : Host F) (source : String) (primVar : PrimitiveVariable F)
    (converter : ToHoudiniAttribConverter F) (name : String) (points : GA_Range)
    (e : Effects F) :
    ∃ new, (convertPointAttrib h source primVar converter name points e).1.calls =
        e.calls ++ new ∧
      ∀ c ∈ new, c.sourceOf = some source ∧ ∀ a, c.attribute = some a → a = name := by
  unfold convertPointAttrib
  by_cases hP : h.UT_MAJOR_VERSION_INT < 15 ∧ name = "P"
  · rw [if_pos hP]
    cases hpos : asV3fVectorData primVar.data with
    | none => exact ⟨[], by simp [transferP], by simp⟩
    | some pos =>
      refine ⟨(points.offsets.zip pos).map (fun op => HostCall.setPos3 source op.1 op.2),
        by simp [transferP], ?_⟩
      intro c hc
      obtain ⟨op, -, rfl⟩ := List.mem_map.mp hc
      simp [HostCall.sourceOf, HostCall.attribute]
  · rw [if_neg hP]
    rcases guardedConvert_cases h source "Point"
      (HostCall.convert source converter name (some points)) e with ⟨-, hr⟩ | ⟨what, -, hr⟩
    · rw [hr]
      by_cases hrest : name = "rest" ∨ name = "Pref"
      · refine ⟨[HostCall.convert source converter name (some points),
          HostCall.setNonTransforming source name], by simp [hrest], ?_⟩
        intro c hc
        simp only [List.mem_cons, List.mem_singleton, List.not_mem_nil, or_false] at hc
        rcases hc with rfl | rfl <;> simp [HostCall.sourceOf, HostCall.attribute]
      · refine ⟨[HostCall.convert source converter name (some points)], by simp [hrest], ?_⟩
        intro c hc
        simp only [List.mem_singleton] at hc
        subst hc
        simp [HostCall.sourceOf, HostCall.attribute]
    · rw [hr]
      exact ⟨[], by simp, by simp⟩

/-- The calls of one run of the second loop body: made for the variable at hand, only if
it is valid and its name matches the filter in force, and under the chosen name. -/
theorem generalPassBody_calls (h : Host F) (primitive : Primitive F)
    (convertStandardAttributes : Bool) (attribFilter : String)
    (points prims vertRange : GA_Range)
    (vertexInterpolation primitiveInterpolation pointInterpolation detailInterpolation :
      Interpolation)
    (it : String × PrimitiveVariable F) (e : Effects F) :
    ∃ new, (generalPassBody h primitive convertStandardAttributes attribFilter points prims
        vertRange vertexInterpolation primitiveInterpolation pointInterpolation
        detailInterpolation it e).1.calls = e.calls ++ new ∧
      ∀ c ∈ new, c.sourceOf = some it.1 ∧
        h.isPrimitiveVariableValid primitive it.2 = true ∧
        h.multiMatch it.1 attribFilter = true ∧
        ∀ a, c.attribute = some a →
          a = if convertStandardAttributes then processPrimitiveVariableName it.1 else it.1 := by
  unfold generalPassBody
  by_cases hvalid : h.isPrimitiveVariableValid primitive it.2 = true
  swap
  · exact ⟨[], by simp [hvalid], by simp⟩
  by_cases hmatch : h.multiMatch it.1 attribFilter = true
  swap
  · exact ⟨[], by simp [hvalid, hmatch], by simp⟩
  have h1 : ¬ ((!h.isPrimitiveVariableValid primitive it.2) = true) := by simp [hvalid]
  have h2 : ¬ ((!h.multiMatch it.1 attribFilter) = true) := by simp [hmatch]
  rw [if_neg h1, if_neg h2]
  generalize (if convertStandardAttributes then processPrimitiveVariableName it.1 else it.1)
    = name
  cases hconv : attribConverter h (processPrimitiveVariable primitive it.2) with
  | none => exact ⟨[], by simp [hconv], by simp⟩
  | some converter =>
    simp only [hconv]
    have key : ∀ (attribClass : String) (range : Option GA_Range),
        ∃ new, (guardedConvert h it.1 attribClass (HostCall.convert it.1 converter name
            range) e).1.calls = e.calls ++ new ∧
          ∀ c ∈ new, c.sourceOf = some it.1 ∧
            h.isPrimitiveVariableValid primitive it.2 = true ∧
            h.multiMatch it.1 attribFilter = true ∧
            ∀ a, c.attribute = some a → a = name := by
      intro attribClass range
      obtain ⟨new, hnew, hc⟩ := guardedConvert_calls h it.1 attribClass
        (HostCall.convert it.1 converter name range) e
      refine ⟨new, hnew, fun c hcn => ?_⟩
      rw [hc c hcn]
      exact ⟨rfl, hvalid, hmatch, fun a ha => by simpa [HostCall.attribute] using ha.symm⟩
    split_ifs
    · exact key "Detail" none
    · obtain ⟨new, hnew, hc⟩ := convertPointAttrib_calls h it.1
        (processPrimitiveVariable primitive it.2) converter name points e
      exact ⟨new, hnew, fun c hcn => ⟨(hc c hcn).1, hvalid, hmatch, (hc c hcn).2⟩⟩
    · exact key "Primitive" (some prims)
    · exact key "Vertex" (some vertRange)
    · exact ⟨[], by simp, by simp⟩

/-- One run of the first loop body either leaves calls and filter as they are, or makes
one conversion, under the original name, of a UV variable whose name matches the filter
in force, and then appends the exclusion of that name to the filter. -/
theorem uvPassBody_cases [Zero F] (h : Host F) (points prims vertRange : GA_Range)
    (vertexInterpolation primitiveInterpolation pointInterpolation : Interpolation)
    (it : String × PrimitiveVariable F) (s : String × Effects F) :
    ((uvPassBody h points prims vertRange vertexInterpolation primitiveInterpolation
        pointInterpolation it s).1.2.calls = s.2.calls ∧
      (uvPassBody h points prims vertRange vertexInterpolation primitiveInterpolation
        pointInterpolation it s).1.1 = s.1) ∨
    (∃ converter range,
      (uvPassBody h points prims vertRange vertexInterpolation primitiveInterpolation
        pointInterpolation it s).1.2.calls =
          s.2.calls ++ [HostCall.convert it.1 converter it.1 (some range)] ∧
      (uvPassBody h points prims vertRange vertexInterpolation primitiveInterpolation
        pointInterpolation it s).1.1 = s.1 ++ " ^" ++ it.1 ∧
      h.multiMatch it.1 s.1 = true ∧ isUVVariable h it.2 = true) := by
  unfold uvPassBody
  by_cases hmatch : h.multiMatch it.1 s.1 = true
  swap
  · left; simp [hmatch]
  have h1 : ¬ ((!h.multiMatch it.1 s.1) = true) := by simp [hmatch]
  rw [if_neg h1]
  cases hdata : it.2.data with
  | V2fVectorData interpretation readable =>
    simp only []
    by_cases huv : interpretation = h.UV
    swap
    · left; simp [huv]
    have h2 : ¬ (interpretation ≠ h.UV) := by simp [huv]
    rw [if_neg h2]
    split
    · left; simp
    · rename_i range hrange
      split
      · left; simp
      · rename_i converter hcreate
        split
        · left; simp
        · right
          exact ⟨converter, range, by simp, by simp, hmatch, by simp [isUVVariable, hdata, huv]⟩
  | V3fVectorData interpretation readable => left; simp
  | StringVectorData readable => left; simp
  | other typeId => left; simp

/-- The first loop, run over any list of entries: the filter it ends with is the one it
started with followed by the exclusions of the variables it converted, and each of its
calls converts a UV variable whose name matched the filter then in force. -/
theorem uvPass_forEach [Zero F] (h : Host F) (points prims vertRange : GA_Range)
    (vertexInterpolation primitiveInterpolation pointInterpolation : Interpolation)
    (items : List (String × PrimitiveVariable F)) (s : String × Effects F) :
    ∃ us new,
      (forEach (uvPassBody h points prims vertRange vertexInterpolation primitiveInterpolation
        pointInterpolation) items s).1.1 = excludeAll s.1 us ∧
      (forEach (uvPassBody h points prims vertRange vertexInterpolation primitiveInterpolation
        pointInterpolation) items s).1.2.calls = s.2.calls ++ new ∧
      (∀ u ∈ us, u ∈ items.map Prod.fst ∧
        ∃ converter range, HostCall.convert u converter u (some range) ∈ new) ∧
      (∀ c ∈ new, ∃ it ∈ items, ∃ converter range us',
        c = HostCall.convert it.1 converter it.1 (some range) ∧
        isUVVariable h it.2 = true ∧ (∀ u ∈ us', u ∈ items.map Prod.fst) ∧
        h.multiMatch it.1 (excludeAll s.1 us') = true) := by
  induction items generalizing s with
  | nil => exact ⟨[], [], by simp [forEach, excludeAll], by simp [forEach], by simp, by simp⟩
  | cons a rest ih =>
    rcases uvPassBody_cases h points prims vertRange vertexInterpolation primitiveInterpolation
      pointInterpolation a s with ⟨hcalls, hfilter⟩ | ⟨converter, range, hcalls, hfilter, hm, huv⟩
    · cases hb : uvPassBody h points prims vertRange vertexInterpolation primitiveInterpolation
        pointInterpolation a s with
      | mk s' failure =>
        rw [hb] at hcalls hfilter
        simp only at hcalls hfilter
        cases failure with
        | some f =>
          rw [forEach_cons_failure _ _ _ _ _ _ hb]
          exact ⟨[], [], by simp [excludeAll, hfilter], by simp [hcalls], by simp, by simp⟩
        | none =>
          rw [forEach_cons_ok _ _ _ _ _ hb]
          obtain ⟨us, new, h1, h2, h3, h4⟩ := ih s'
          refine ⟨us, new, ?_, ?_, ?_, ?_⟩
          · simpa [hfilter] using h1
          · simpa [hcalls] using h2
          · intro u hu
            obtain ⟨hmem, hcall⟩ := h3 u hu
            exact ⟨by simp only [List.map_cons, List.mem_cons]; exact Or.inr hmem, hcall⟩
          · intro c hc
            obtain ⟨it, hit, conv, rg, us', hceq, hisuv, hus', hmm⟩ := h4 c hc
            refine ⟨it, List.mem_cons_of_mem _ hit, conv, rg, us', hceq, hisuv, ?_, ?_⟩
            · intro u hu
              simp only [List.map_cons, List.mem_cons]
              exact Or.inr (hus' u hu)
            · simpa [hfilter] using hmm
    · cases hb : uvPassBody h points prims vertRange vertexInterpolation primitiveInterpolation
        pointInterpolation a s with
      | mk s' failure =>
        rw [hb] at hcalls hfilter
        simp only at hcalls hfilter
        have hself : ∃ it ∈ a :: rest, ∃ converter' range' us',
            HostCall.convert a.1 converter a.1 (some range) =
              HostCall.convert it.1 converter' it.1 (some range') ∧
            isUVVariable h it.2 = true ∧ (∀ u ∈ us', u ∈ (a :: rest).map Prod.fst) ∧
            h.multiMatch it.1 (excludeAll s.1 us') = true :=
          ⟨a, List.mem_cons_self _ _, converter, range, [], rfl, huv, by simp,
            by simpa [excludeAll] using hm⟩
        cases failure with
        | some f =>
          rw [forEach_cons_failure _ _ _ _ _ _ hb]
          refine ⟨[a.1], [HostCall.convert a.1 converter a.1 (some range)], ?_, ?_, ?_, ?_⟩
          · simp [excludeAll, hfilter]
          · simp [hcalls]
          · intro u hu
            simp only [List.mem_singleton] at hu
            subst hu
            exact ⟨by simp, converter, range, by simp⟩
          · intro c hc
            simp only [List.mem_singleton] at hc
            subst hc
            exact hself
        | none =>
          rw [forEach_cons_ok _ _ _ _ _ hb]
          obtain ⟨us, new, h1, h2, h3, h4⟩ := ih s'
          refine ⟨a.1 :: us, HostCall.convert a.1 converter a.1 (some range) :: new,
            ?_, ?_, ?_, ?_⟩
          · simpa [excludeAll, hfilter] using h1
          · simpa [hcalls] using h2
          · intro u hu
            rcases List.mem_cons.mp hu with rfl | hu
            · exact ⟨by simp, converter, range, by simp⟩
            · obtain ⟨hmem, conv, rg, hcall⟩ := h3 u hu
              exact ⟨by simp only [List.map_cons, List.mem_cons]; exact Or.inr hmem,
                conv, rg, List.mem_cons_of_mem _ hcall⟩
          · intro c hc
            rcases List.mem_cons.mp hc with rfl | hc
            · exact hself
            · obtain ⟨it, hit, conv, rg, us', hceq, hisuv, hus', hmm⟩ := h4 c hc
              refine ⟨it, List.mem_cons_of_mem _ hit, conv, rg, a.1 :: us', hceq, hisuv, ?_, ?_⟩
              · intro u hu
                rcases List.mem_cons.mp hu with rfl | hu
                · simp
                · simp only [List.map_cons, List.mem_cons]
                  exact Or.inr (hus' u hu)
              · simpa [excludeAll, hfilter] using hmm

/-- The calls of the second loop: each is made for a valid variable of the primitive
whose name matches the filter handed to the loop, under the chosen attribute name. -/
theorem generalPass_calls (h : Host F) (primitive : Primitive F)
    (convertStandardAttributes : Bool) (attribFilter : String)
    (points prims vertRange : GA_Range)
    (vertexInterpolation primitiveInterpolation pointInterpolation detailInterpolation :
      Interpolation)
    (e : Effects F) :
    ∃ new, (generalPass h primitive convertStandardAttributes attribFilter points prims
        vertRange vertexInterpolation primitiveInterpolation pointInterpolation
        detailInterpolation e).1.calls = e.calls ++ new ∧
      ∀ c ∈ new, ∃ it ∈ primitive.primitiveVariables, c.sourceOf = some it.1 ∧
        h.isPrimitiveVariableValid primitive it.2 = true ∧
        h.multiMatch it.1 attribFilter = true ∧
        ∀ a, c.attribute = some a →
          a = if convertStandardAttributes then processPrimitiveVariableName it.1 else it.1 := by
  have hloop := forEach_calls (fun e : Effects F => e.calls) (fun _ => True)
    (fun (it : String × PrimitiveVariable F) c => c.sourceOf = some it.1 ∧
      h.isPrimitiveVariableValid primitive it.2 = true ∧
      h.multiMatch it.1 attribFilter = true ∧
      ∀ a, c.attribute = some a →
        a = if convertStandardAttributes then processPrimitiveVariableName it.1 else it.1)
    (generalPassBody h primitive convertStandardAttributes attribFilter points prims
      vertRange vertexInterpolation primitiveInterpolation pointInterpolation
      detailInterpolation) primitive.primitiveVariables
    (fun it _ s _ => ⟨trivial, generalPassBody_calls h primitive convertStandardAttributes
      attribFilter points prims vertRange vertexInterpolation primitiveInterpolation
      pointInterpolation detailInterpolation it s⟩) e trivial
  exact hloop.2

/-- The calls of the unguarded name conversion: none, or the one call. -/
theorem convertName_calls (h : Host F) (value : String) (prims : GA_Range) (e : Effects F) :
    ∃ new, (convertName h value prims e).1.calls = e.calls ++ new ∧
      ∀ c ∈ new, c = HostCall.convertString "name" value prims := by
  unfold convertName
  cases h.throws e.calls (HostCall.convertString "name" value prims) with
  | none => exact ⟨[HostCall.convertString "name" value prims], by simp, by simp⟩
  | some what => exact ⟨[], by simp, by simp⟩

/-- The calls of `transferAttribValues`, by the part of the function that makes them:
the first loop (UV variables, original name, filter extended so far), the second loop
(valid variables, chosen name, filter as extended by the first loop) and the blind data
name. -/
theorem transferAttribValues_calls [Zero F] (h : Host F) (self : ToHoudiniGeometryConverter)
    (primitive : Primitive F) (geo : GU_Detail) (points prims : GA_Range)
    (vertexInterpolation primitiveInterpolation pointInterpolation detailInterpolation :
      Interpolation)
    (e : Effects F) :
    ∃ us uvNew genNew nameNew,
      (transferAttribValues h self primitive geo points prims vertexInterpolation
        primitiveInterpolation pointInterpolation detailInterpolation e).1.calls =
          e.calls ++ (uvNew ++ (genNew ++ nameNew)) ∧
      (∀ u ∈ us, u ∈ primitive.primitiveVariables.map Prod.fst) ∧
      (∀ c ∈ uvNew, ∃ it ∈ primitive.primitiveVariables, ∃ converter range us',
        c = HostCall.convert it.1 converter it.1 (some range) ∧
        isUVVariable h it.2 = true ∧
        (∀ u ∈ us', u ∈ primitive.primitiveVariables.map Prod.fst) ∧
        h.multiMatch it.1 (excludeAll self.attributeFilter us') = true) ∧
      (∀ c ∈ genNew, ∃ it ∈ primitive.primitiveVariables, c.sourceOf = some it.1 ∧
        h.isPrimitiveVariableValid primitive it.2 = true ∧
        h.multiMatch it.1 (excludeAll self.attributeFilter us) = true ∧
        ∀ a, c.attribute = some a →
          a = if self.convertStandardAttributes then processPrimitiveVariableName it.1
            else it.1) ∧
      (∀ c ∈ nameNew, ∃ value, primitive.blindDataName = some value ∧
        c = HostCall.convertString "name" value prims) := by
  obtain ⟨us, uvNew, hfilter, hcalls, hus, huv⟩ := uvPass_forEach h points prims
    (vertRange geo prims) vertexInterpolation primitiveInterpolation pointInterpolation
    primitive.primitiveVariables (self.attributeFilter, e)
  unfold transferAttribValues uvPass
  cases hu : forEach (uvPassBody h points prims (vertRange geo prims) vertexInterpolation
      primitiveInterpolation pointInterpolation) primitive.primitiveVariables
      (self.attributeFilter, e) with
  | mk s1 failure1 =>
    obtain ⟨filter1, e1⟩ := s1
    rw [hu] at hfilter hcalls
    simp only at hfilter hcalls
    cases failure1 with
    | some f =>
      exact ⟨us, uvNew, [], [], by simp [hcalls], fun u hu' => (hus u hu').1, huv,
        by simp, by simp⟩
    | none =>
      simp only []
      obtain ⟨genNew, hgcalls, hgen⟩ := generalPass_calls h primitive
        self.convertStandardAttributes filter1 points prims (vertRange geo prims)
        vertexInterpolation primitiveInterpolation pointInterpolation detailInterpolation e1
      cases hg : generalPass h primitive self.convertStandardAttributes filter1 points prims
          (vertRange geo prims) vertexInterpolation primitiveInterpolation pointInterpolation
          detailInterpolation e1 with
      | mk e2 failure2 =>
        rw [hg] at hgcalls
        simp only at hgcalls
        have hgen' : ∀ c ∈ genNew, ∃ it ∈ primitive.primitiveVariables,
            c.sourceOf = some it.1 ∧ h.isPrimitiveVariableValid primitive it.2 = true ∧
            h.multiMatch it.1 (excludeAll self.attributeFilter us) = true ∧
            ∀ a, c.attribute = some a →
              a = if self.convertStandardAttributes then processPrimitiveVariableName it.1
                else it.1 := by
          intro c hc
          obtain ⟨it, hit, h1, h2, h3, h4⟩ := hgen c hc
          exact ⟨it, hit, h1, h2, by rw [← hfilter]; exact h3, h4⟩
        cases failure2 with
        | some f =>
          exact ⟨us, uvNew, genNew, [], by simp [hgcalls, hcalls],
            fun u hu' => (hus u hu').1, huv, hgen', by simp⟩
        | none =>
          simp only []
          cases hname : primitive.blindDataName with
          | none =>
            exact ⟨us, uvNew, genNew, [], by simp [hgcalls, hcalls],
              fun u hu' => (hus u hu').1, huv, hgen', by simp⟩
          | some value =>
            simp only []
            by_cases hvalid : prims.isValid = true
            · obtain ⟨nameNew, hncalls, hn⟩ := convertName_calls h value prims e2
              refine ⟨us, uvNew, genNew, nameNew, ?_, fun u hu' => (hus u hu').1, huv, hgen',
                fun c hc => ⟨value, rfl, hn c hc⟩⟩
              rw [if_pos hvalid, hncalls, hgcalls, hcalls]
              simp
            · exact ⟨us, uvNew, genNew, [], by simp [hvalid, hgcalls, hcalls],
                fun u hu' => (hus u hu').1, huv, hgen', by simp⟩

/-- The renaming never produces the attribute name "name" from another name. -/
theorem processPrimitiveVariableName_ne_name (n : String) (hn : n ≠ "name") :
    processPrimitiveVariableName n ≠ "name" := by
  unfold processPrimitiveVariableName
  split_ifs
  · decide
  · decide
  · decide
  · decide
  · exact hn

theorem HostCall.convertsFor_of_sourceOf_ne (n source : String) (c : HostCall F)
    (hsource : c.sourceOf = some source) (hne : source ≠ n) : c.convertsFor n = false := by
  cases c <;> simp_all [HostCall.sourceOf, HostCall.convertsFor]

/-- A variable whose interpolation is none of the four makes the second loop body write
nothing and raise nothing. -/
theorem generalPassBody_unrouted (h : Host F) (primitive : Primitive F)
    (convertStandardAttributes : Bool) (attribFilter : String)
    (points prims vertRange : GA_Range)
    (vertexInterpolation primitiveInterpolation pointInterpolation detailInterpolation :
      Interpolation)
    (it : String × PrimitiveVariable F) (e : Effects F)
    (hroute : routedRange it.2.interpolation detailInterpolation pointInterpolation
      primitiveInterpolation vertexInterpolation points prims vertRange = none) :
    (generalPassBody h primitive convertStandardAttributes attribFilter points prims
      vertRange vertexInterpolation primitiveInterpolation pointInterpolation
      detailInterpolation it e).2 = none ∧
    (generalPassBody h primitive convertStandardAttributes attribFilter points prims
      vertRange vertexInterpolation primitiveInterpolation pointInterpolation
      detailInterpolation it e).1.calls = e.calls := by
  unfold routedRange at hroute
  split_ifs at hroute with hd hpt hpr hv
  unfold generalPassBody
  by_cases hvalid : h.isPrimitiveVariableValid primitive it.2 = true
  swap
  · simp [hvalid]
  by_cases hmatch : h.multiMatch it.1 attribFilter = true
  swap
  · simp [hvalid, hmatch]
  cases hconv : attribConverter h it.2 with
  | none => simp [hvalid, hmatch, hconv, processPrimitiveVariable]
  | some converter =>
    simp [hvalid, hmatch, hconv, processPrimitiveVariable, hd, hpt, hpr, hv]

/-- A valid, filter-matched variable with a converter that is not a point attribute P of
a build before Houdini 15: when the second loop body raises nothing, the conversions it
made for the variable are the single one on the routed owner, or none when the
interpolation is none of the four. -/
theorem generalPassBody_routed (h : Host F) (primitive : Primitive F)
    (convertStandardAttributes : Bool) (attribFilter : String)
    (points prims vertRange : GA_Range)
    (vertexInterpolation primitiveInterpolation pointInterpolation detailInterpolation :
      Interpolation)
    (it : String × PrimitiveVariable F) (e : Effects F)
    (converter : ToHoudiniAttribConverter F)
    (hmodern : ¬ (h.UT_MAJOR_VERSION_INT < 15 ∧
      (if convertStandardAttributes then processPrimitiveVariableName it.1 else it.1) = "P"))
    (hvalid : h.isPrimitiveVariableValid primitive it.2 = true)
    (hmatch : h.multiMatch it.1 attribFilter = true)
    (hconv : attribConverter h it.2 = some converter)
    (hok : (generalPassBody h primitive convertStandardAttributes attribFilter points prims
      vertRange vertexInterpolation primitiveInterpolation pointInterpolation
      detailInterpolation it e).2 = none) :
    ∃ new, (generalPassBody h primitive convertStandardAttributes attribFilter points prims
        vertRange vertexInterpolation primitiveInterpolation pointInterpolation
        detailInterpolation it e).1.calls = e.calls ++ new ∧
      new.filter (HostCall.convertsFor it.1) =
        match routedRange it.2.interpolation detailInterpolation pointInterpolation
          primitiveInterpolation vertexInterpolation points prims vertRange with
        | some range => [HostCall.convert it.1 converter
            (if convertStandardAttributes then processPrimitiveVariableName it.1 else it.1)
            range]
        | none => [] := by
  have h1 : ¬ ((!h.isPrimitiveVariableValid primitive it.2) = true) := by simp [hvalid]
  have h2 : ¬ ((!h.multiMatch it.1 attribFilter) = true) := by simp [hmatch]
  have hconv' : attribConverter h (processPrimitiveVariable primitive it.2) = some converter :=
    hconv
  unfold generalPassBody at hok ⊢
  rw [if_neg h1, if_neg h2] at hok ⊢
  simp only [hconv'] at hok ⊢
  unfold routedRange
  simp only [processPrimitiveVariable] at hok ⊢
  generalize (if convertStandardAttributes then processPrimitiveVariableName it.1 else it.1)
    = name at hok hmodern ⊢
  have hP : ¬ (h.UT_MAJOR_VERSION_INT < 15 ∧ name = "P") := hmodern
  have key : ∀ (attribClass : String) (range : Option GA_Range),
      (guardedConvert h it.1 attribClass (HostCall.convert it.1 converter name range) e).2 =
        none →
      ∃ new, (guardedConvert h it.1 attribClass
          (HostCall.convert it.1 converter name range) e).1.calls = e.calls ++ new ∧
        new.filter (HostCall.convertsFor it.1) =
          [HostCall.convert it.1 converter name range] := by
    intro attribClass range hnone
    rcases guardedConvert_cases h it.1 attribClass
      (HostCall.convert it.1 converter name range) e with ⟨-, hr⟩ | ⟨what, -, hr⟩
    · exact ⟨[_], by rw [hr]; rfl, by simp [HostCall.convertsFor]⟩
    · rw [hr] at hnone
      cases hnone
  by_cases hd : it.2.interpolation = detailInterpolation
  · simp only [if_pos hd] at hok ⊢
    exact key "Detail" none hok
  simp only [if_neg hd] at hok ⊢
  by_cases hpt : it.2.interpolation = pointInterpolation
  · simp only [if_pos hpt] at hok ⊢
    unfold convertPointAttrib at hok ⊢
    rw [if_neg hP] at hok ⊢
    rcases guardedConvert_cases h it.1 "Point"
      (HostCall.convert it.1 converter name (some points)) e with ⟨-, hr⟩ | ⟨what, -, hr⟩
    · rw [hr]
      simp only []
      by_cases hrest : name = "rest" ∨ name = "Pref"
      · rw [if_pos hrest]
        exact ⟨[HostCall.convert it.1 converter name (some points),
          HostCall.setNonTransforming it.1 name], by simp, by simp [HostCall.convertsFor]⟩
      · rw [if_neg hrest]
        exact ⟨[HostCall.convert it.1 converter name (some points)], by simp,
          by simp [HostCall.convertsFor]⟩
    · rw [hr] at hok
      cases hok
  simp only [if_neg hpt] at hok ⊢
  by_cases hpr : it.2.interpolation = primitiveInterpolation
  · simp only [if_pos hpr] at hok ⊢
    exact key "Primitive" (some prims) hok
  simp only [if_neg hpr] at hok ⊢
  by_cases hv : it.2.interpolation = vertexInterpolation
  · simp only [if_pos hv] at hok ⊢
    exact key "Vertex" (some vertRange) hok
  simp only [if_neg hv] at hok ⊢
  exact ⟨[], by simp, by simp⟩

/-- The routed range is the range of the routed owner. -/
theorem routedRange_eq_range_routedOwner (interpolation : Interpolation)
    (detailInterpolation pointInterpolation primitiveInterpolation vertexInterpolation :
      Interpolation)
    (points prims vertRange : GA_Range) :
    routedRange interpolation detailInterpolation pointInterpolation primitiveInterpolation
      vertexInterpolation points prims vertRange =
    (routedOwner interpolation detailInterpolation pointInterpolation primitiveInterpolation
      vertexInterpolation).map (AttribOwner.range points prims vertRange) := by
  unfold routedRange routedOwner
  split_ifs <;> rfl

/-- On a valid, filter-matched variable with a converter the second loop body does what
the amended specification expects, on every host and in every build. -/
theorem generalPassBody_eq_expectedRouting (h : Host F) (primitive : Primitive F)
    (convertStandardAttributes : Bool) (attribFilter : String)
    (points prims vertRange : GA_Range)
    (vertexInterpolation primitiveInterpolation pointInterpolation detailInterpolation :
      Interpolation)
    (it : String × PrimitiveVariable F) (e : Effects F)
    (converter : ToHoudiniAttribConverter F)
    (hvalid : h.isPrimitiveVariableValid primitive it.2 = true)
    (hmatch : h.multiMatch it.1 attribFilter = true)
    (hconv : attribConverter h it.2 = some converter) :
    generalPassBody h primitive convertStandardAttributes attribFilter points prims
      vertRange vertexInterpolation primitiveInterpolation pointInterpolation
      detailInterpolation it e =
    expectedRouting h convertStandardAttributes points prims vertRange vertexInterpolation
      primitiveInterpolation pointInterpolation detailInterpolation it converter e := by
  have h1 : ¬ ((!h.isPrimitiveVariableValid primitive it.2) = true) := by simp [hvalid]
  have h2 : ¬ ((!h.multiMatch it.1 attribFilter) = true) := by simp [hmatch]
  have hconv' : attribConverter h (processPrimitiveVariable primitive it.2) = some converter :=
    hconv
  unfold generalPassBody expectedRouting routedOwner
  rw [if_neg h1, if_neg h2]
  simp only [hconv']
  simp only [processPrimitiveVariable]
  generalize (if convertStandardAttributes then processPrimitiveVariableName it.1 else it.1)
    = name
  have key : ∀ (attribClass : String) (range : Option GA_Range),
      guardedConvert h it.1 attribClass (HostCall.convert it.1 converter name range) e =
      expectedConversion h e it.1 attribClass (HostCall.convert it.1 converter name range)
        [] := by
    intro attribClass range
    unfold guardedConvert expectedConversion
    cases h.throws e.calls (HostCall.convert it.1 converter name range) with
    | none => rfl
    | some what => rfl
  by_cases hd : it.2.interpolation = detailInterpolation
  · simp only [if_pos hd]
    exact key "Detail" none
  simp only [if_neg hd]
  by_cases hpt : it.2.interpolation = pointInterpolation
  · simp only [if_pos hpt]
    unfold convertPointAttrib
    by_cases hP : h.UT_MAJOR_VERSION_INT < 15 ∧ name = "P"
    · rw [if_pos hP, if_pos hP]
      cases it.2.data <;> rfl
    · rw [if_neg hP, if_neg hP]
      unfold guardedConvert expectedConversion
      cases h.throws e.calls (HostCall.convert it.1 converter name (some points)) with
      | some what => rfl
      | none =>
        by_cases hrest : name = "rest" ∨ name = "Pref"
        · simp [hrest, Effects.record]
        · simp [hrest, Effects.record]
  simp only [if_neg hpt]
  by_cases hpr : it.2.interpolation = primitiveInterpolation
  · simp only [if_pos hpr]
    exact key "Primitive" (some prims)
  simp only [if_neg hpr]
  by_cases hv : it.2.interpolation = vertexInterpolation
  · simp only [if_pos hv]
    exact key "Vertex" (some vertRange)
  simp only [if_neg hv]

/-- A loop whose body never fails does not fail. -/
theorem forEach_ok {α σ : Type} (body : α → σ → σ × Option Failure)
    (hbody : ∀ a s, (body a s).2 = none) (items : List α) (s : σ) :
    (forEach body items s).2 = none := by
  induction items generalizing s with
  | nil => rfl
  | cons a rest ih =>
    cases hb : body a s with
    | mk s' failure =>
      have hnone := hbody a s
      rw [hb] at hnone
      simp only at hnone
      subst hnone
      rw [forEach_cons_ok _ _ _ _ _ hb]
      exact ih s'

/-- On a host whose conversions never throw the second loop body raises nothing. -/
theorem generalPassBody_quiet (h : Host F) (primitive : Primitive F)
    (convertStandardAttributes : Bool) (attribFilter : String)
    (points prims vertRange : GA_Range)
    (vertexInterpolation primitiveInterpolation pointInterpolation detailInterpolation :
      Interpolation)
    (hquiet : ∀ calls c, h.throws calls c = none)
    (it : String × PrimitiveVariable F) (e : Effects F) :
    (generalPassBody h primitive convertStandardAttributes attribFilter points prims
      vertRange vertexInterpolation primitiveInterpolation pointInterpolation
      detailInterpolation it e).2 = none := by
  by_cases hvalid : h.isPrimitiveVariableValid primitive it.2 = true
  swap
  · simp [generalPassBody, hvalid]
  by_cases hmatch : h.multiMatch it.1 attribFilter = true
  swap
  · simp [generalPassBody, hvalid, hmatch]
  cases hconv : attribConverter h it.2 with
  | none => simp [generalPassBody, hvalid, hmatch, hconv, processPrimitiveVariable]
  | some converter =>
    rw [generalPassBody_eq_expectedRouting h primitive convertStandardAttributes attribFilter
      points prims vertRange vertexInterpolation primitiveInterpolation pointInterpolation
      detailInterpolation it e converter hvalid hmatch hconv]
    unfold expectedRouting
    cases routedOwner it.2.interpolation detailInterpolation pointInterpolation
        primitiveInterpolation vertexInterpolation with
    | none => rfl
    | some owner =>
      cases owner
      · simp [expectedConversion, hquiet]
      · simp only [expectedConversion, hquiet]
        split_ifs <;> first | rfl | (cases it.2.data <;> rfl)
      · simp [expectedConversion, hquiet]
      · simp [expectedConversion, hquiet]

/-- No call in a list made for other variables converts for `n`. -/
theorem filter_convertsFor_eq_nil (n : String) (calls : List (HostCall F))
    (hcalls : ∀ c ∈ calls, ∃ source, c.sourceOf = some source ∧ source ≠ n) :
    calls.filter (HostCall.convertsFor n) = [] := by
  rw [List.filter_eq_nil_iff]
  intro c hc
  obtain ⟨source, hsource, hne⟩ := hcalls c hc
  simp [HostCall.convertsFor_of_sourceOf_ne n source c hsource hne]

/-- The second loop over entries with distinct names, none of them a P of a build before
Houdini 15, when nothing is raised: for each valid, filter-matched entry with a converter,
the conversions made for it are the single one on the routed owner, or none. -/
theorem generalPass_forEach_routing (h : Host F) (primitive : Primitive F)
    (convertStandardAttributes : Bool) (attribFilter : String)
    (points prims vertRange : GA_Range)
    (vertexInterpolation primitiveInterpolation pointInterpolation detailInterpolation :
      Interpolation)
    (items : List (String × PrimitiveVariable F)) (e : Effects F)
    (hmodern : ∀ it ∈ items, ¬ (h.UT_MAJOR_VERSION_INT < 15 ∧
      (if convertStandardAttributes then processPrimitiveVariableName it.1 else it.1) = "P"))
    (hnodup : (items.map Prod.fst).Nodup)
    (hok : (forEach (generalPassBody h primitive convertStandardAttributes attribFilter points
      prims vertRange vertexInterpolation primitiveInterpolation pointInterpolation
      detailInterpolation) items e).2 = none) :
    ∃ new, (forEach (generalPassBody h primitive convertStandardAttributes attribFilter points
        prims vertRange vertexInterpolation primitiveInterpolation pointInterpolation
        detailInterpolation) items e).1.calls = e.calls ++ new ∧
      (∀ c ∈ new, ∃ it ∈ items, c.sourceOf = some it.1) ∧
      ∀ it ∈ items, h.isPrimitiveVariableValid primitive it.2 = true →
        h.multiMatch it.1 attribFilter = true →
        ∀ converter, attribConverter h it.2 = some converter →
        new.filter (HostCall.convertsFor it.1) =
          match routedRange it.2.interpolation detailInterpolation pointInterpolation
            primitiveInterpolation vertexInterpolation points prims vertRange with
          | some range => [HostCall.convert it.1 converter
              (if convertStandardAttributes then processPrimitiveVariableName it.1 else it.1)
              range]
          | none => [] := by
  induction items generalizing e with
  | nil => exact ⟨[], by simp [forEach], by simp, by simp⟩
  | cons a rest ih =>
    have hnodup' : (rest.map Prod.fst).Nodup := (List.nodup_cons.mp hnodup).2
    have hfresh : ∀ it ∈ rest, it.1 ≠ a.1 := by
      intro it hit heq
      exact (List.nodup_cons.mp hnodup).1 (heq ▸ List.mem_map_of_mem Prod.fst hit)
    cases hb : generalPassBody h primitive convertStandardAttributes attribFilter points
        prims vertRange vertexInterpolation primitiveInterpolation pointInterpolation
        detailInterpolation a e with
    | mk e' failure =>
      cases failure with
      | some f =>
        rw [forEach_cons_failure _ _ _ _ _ _ hb] at hok
        cases hok
      | none =>
        rw [forEach_cons_ok _ _ _ _ _ hb] at hok ⊢
        obtain ⟨new', hcalls', hsrc', hroute'⟩ :=
          ih e' (fun it hit => hmodern it (List.mem_cons_of_mem _ hit)) hnodup' hok
        obtain ⟨newA, hcallsA, hsrcA⟩ := generalPassBody_calls h primitive
          convertStandardAttributes attribFilter points prims vertRange vertexInterpolation
          primitiveInterpolation pointInterpolation detailInterpolation a e
        rw [hb] at hcallsA
        simp only at hcallsA
        refine ⟨newA ++ new', by rw [hcalls', hcallsA, List.append_assoc], ?_, ?_⟩
        · intro c hc
          rcases List.mem_append.mp hc with hc | hc
          · exact ⟨a, List.mem_cons_self _ _, (hsrcA c hc).1⟩
          · obtain ⟨it, hit, hs⟩ := hsrc' c hc
            exact ⟨it, List.mem_cons_of_mem _ hit, hs⟩
        · intro it hit hvalid hmatch converter hconv
          rw [List.filter_append]
          rcases List.mem_cons.mp hit with rfl | hit
          · have hnil : new'.filter (HostCall.convertsFor it.1) = [] := by
              apply filter_convertsFor_eq_nil
              intro c hc
              obtain ⟨it', hit', hs⟩ := hsrc' c hc
              exact ⟨it'.1, hs, hfresh it' hit'⟩
            obtain ⟨new2, hcalls2, hfilter2⟩ := generalPassBody_routed h primitive
              convertStandardAttributes attribFilter points prims vertRange
              vertexInterpolation primitiveInterpolation pointInterpolation
              detailInterpolation it e converter (hmodern it (List.mem_cons_self _ _))
              hvalid hmatch hconv
              (by rw [hb])
            rw [hb] at hcalls2
            simp only at hcalls2
            have hsame : newA = new2 := List.append_cancel_left (hcallsA.symm.trans hcalls2)
            rw [hnil, List.append_nil, hsame, hfilter2]
          · have hnil : newA.filter (HostCall.convertsFor it.1) = [] := by
              apply filter_convertsFor_eq_nil
              intro c hc
              exact ⟨a.1, (hsrcA c hc).1, fun heq => hfresh it hit heq.symm⟩
            rw [hnil, List.nil_append]
            exact hroute' it hit hvalid hmatch converter hconv

end lemmas

section claims

variable {F : Type}

/-- C1: every conversion `transferAttribValues` makes for a primitive variable that is
not a UV set runs under the attribute name `processPrimitiveVariableName n` when
`convertStandardAttributes` is on and under the name `n` of the variable when it is off;
the renaming sends Cs to Cd, Os to Alpha, Pref to rest, width to pscale and keeps every
other name. -/
theorem transferAttribValues_attribute_name [Zero F] (h : Host F)
    (self : ToHoudiniGeometryConverter) (primitive : Primitive F) (geo : GU_Detail)
    (points prims : GA_Range)
    (vertexInterpolation primitiveInterpolation pointInterpolation detailInterpolation :
      Interpolation)
    (e : Effects F) :
    (∃ new, (transferAttribValues h self primitive geo points prims vertexInterpolation
        primitiveInterpolation pointInterpolation detailInterpolation e).1.calls =
          e.calls ++ new ∧
      ∀ c ∈ new, ∀ n converter name range, c = HostCall.convert n converter name range →
        (∀ primVar, (n, primVar) ∈ primitive.primitiveVariables →
          isUVVariable h primVar = false) →
        name = if self.convertStandardAttributes then processPrimitiveVariableName n else n) ∧
    processPrimitiveVariableName "Cs" = "Cd" ∧
    processPrimitiveVariableName "Os" = "Alpha" ∧
    processPrimitiveVariableName "Pref" = "rest" ∧
    processPrimitiveVariableName "width" = "pscale" ∧
    (∀ n, n ≠ "Cs" → n ≠ "Os" → n ≠ "Pref" → n ≠ "width" →
      processPrimitiveVariableName n = n) := by
  refine ⟨?_, by decide, by decide, by decide, by decide, ?_⟩
  · obtain ⟨us, uvNew, genNew, nameNew, hcalls, -, huv, hgen, hname⟩ :=
      transferAttribValues_calls h self primitive geo points prims vertexInterpolation
        primitiveInterpolation pointInterpolation detailInterpolation e
    refine ⟨uvNew ++ (genNew ++ nameNew), hcalls, ?_⟩
    intro c hc n converter name range hceq hnouv
    rcases List.mem_append.mp hc with hc | hc
    · obtain ⟨it, hit, conv, rg, us', hceq', hisuv, -, -⟩ := huv c hc
      rw [hceq] at hceq'
      injection hceq' with h1 h2 h3 h4
      have := hnouv it.2 (by rw [h1]; exact hit)
      rw [this] at hisuv
      cases hisuv
    · rcases List.mem_append.mp hc with hc | hc
      · obtain ⟨it, hit, hsrc, -, -, hattr⟩ := hgen c hc
        rw [hceq] at hsrc hattr
        simp only [HostCall.sourceOf, Option.some.injEq] at hsrc
        rw [hsrc]
        exact hattr name rfl
      · obtain ⟨value, -, hceq'⟩ := hname c hc
        rw [hceq] at hceq'
        cases hceq'
  · intro n h1 h2 h3 h4
    simp [processPrimitiveVariableName, h1, h2, h3, h4]

/-- C1, on a primitive with the single vertex-interpolated variable Cs and the default
parameters: the one conversion made runs under the name Cd. -/
theorem transferAttribValues_attribute_name_witness :
    "Cd" = (if ({} : ToHoudiniGeometryConverter).convertStandardAttributes
      then processPrimitiveVariableName "Cs" else "Cs") := by
  obtain ⟨new, hcalls, hall⟩ := (transferAttribValues_attribute_name
    (sampleHost (fun _ => true)) {}
    (Primitive.mk [("Cs", PrimitiveVariable.mk 3 (Data.other 100) none)] none)
    sampleGeo samplePoints samplePrims 5 2 3 1 (Effects.mk [] [])).1
  have hnew : new = [HostCall.convert "Cs" (ToHoudiniAttribConverter.mk (Data.other 100) false none)
      "Cd" (some samplePoints)] := by
    rw [List.nil_append] at hcalls
    rw [← hcalls]
    decide
  refine hall _ (by rw [hnew]; exact List.mem_singleton_self _) "Cs" _ "Cd" _ rfl ?_
  intro primVar hmem
  simp only [List.mem_singleton, Prod.mk.injEq, true_and] at hmem
  subst hmem
  rfl

/-- C4, refuted as stated: with the name parameter left empty, a primitive whose blind
data carries the name "legacy" is given a "name" attribute on the primitive range, and so
is a primitive with a uniform-interpolated string variable called "name". -/
theorem transferAttribs_names_from_source :
    ({} : ToHoudiniGeometryConverter).name = "" ∧
    (transferAttribs (sampleHost (fun _ => true)) {} sampleDefaults
      (some (Primitive.mk [] (some "legacy"))) sampleGeo samplePoints samplePrims
      (Effects.mk [] [])).1.calls = [HostCall.convertString "name" "legacy" samplePrims] ∧
    (transferAttribs (sampleHost (fun _ => true)) {} sampleDefaults
      (some (Primitive.mk
        [("name", PrimitiveVariable.mk 2 (Data.StringVectorData ["left"]) none)] none))
      sampleGeo samplePoints samplePrims (Effects.mk [] [])).1.calls =
        [HostCall.convert "name"
          (ToHoudiniAttribConverter.mk (Data.StringVectorData ["left"]) true none) "name"
          (some samplePrims)] := by
  decide

/-- C4, amended: with the name parameter empty, `transferAttribs` creates no attribute
called "name" as long as the source primitive has no "name" entry in its blind data and
no primitive variable called "name" (or the source is not a primitive at all). -/
theorem transferAttribs_unnamed [Zero F] (h : Host F) (self : ToHoudiniGeometryConverter)
    (defaults : DefaultInterpolations) (src : Option (Primitive F)) (geo : GU_Detail)
    (points prims : GA_Range) (e : Effects F) (hname : self.name = "")
    (hsrc : ∀ primitive, src = some primitive → primitive.blindDataName = none ∧
      ∀ it ∈ primitive.primitiveVariables, it.1 ≠ "name") :
    ∃ new, (transferAttribs h self defaults src geo points prims e).1.calls = e.calls ++ new ∧
      ∀ c ∈ new, c.attribute ≠ some "name" := by
  have hset : ∀ e' : Effects F, setName h self prims e' = (e', none) := by
    intro e'
    simp [setName, hname]
  unfold transferAttribs
  cases src with
  | none => exact ⟨[], by simp [hset], by simp⟩
  | some primitive =>
    obtain ⟨hblind, hvars⟩ := hsrc primitive rfl
    obtain ⟨us, uvNew, genNew, nameNew, hcalls, -, huv, hgen, hnameNew⟩ :=
      transferAttribValues_calls h self primitive geo points prims
        defaults.vertexInterpolation defaults.primitiveInterpolation
        defaults.pointInterpolation defaults.detailInterpolation e
    refine ⟨uvNew ++ (genNew ++ nameNew), ?_, ?_⟩
    · simp only []
      cases hr : transferAttribValues h self primitive geo points prims
          defaults.vertexInterpolation defaults.primitiveInterpolation
          defaults.pointInterpolation defaults.detailInterpolation e with
      | mk e1 failure =>
        rw [hr] at hcalls
        cases failure with
        | some f => exact hcalls
        | none => simpa [hset] using hcalls
    · intro c hc
      rcases List.mem_append.mp hc with hc | hc
      · obtain ⟨it, hit, conv, rg, us', hceq, -, -, -⟩ := huv c hc
        rw [hceq]
        simpa [HostCall.attribute] using hvars it hit
      · rcases List.mem_append.mp hc with hc | hc
        · obtain ⟨it, hit, -, -, -, hattr⟩ := hgen c hc
          intro hcontra
          have hchosen := hattr "name" hcontra
          have hne := hvars it hit
          by_cases hcsa : self.convertStandardAttributes = true
          · rw [if_pos hcsa] at hchosen
            exact processPrimitiveVariableName_ne_name it.1 hne hchosen.symm
          · rw [if_neg hcsa] at hchosen
            exact hne hchosen.symm
        · obtain ⟨value, hsome, -⟩ := hnameNew c hc
          rw [hblind] at hsome
          cases hsome

/-- C4 amended, on a primitive with the single variable Cs and no blind data name. -/
theorem transferAttribs_unnamed_witness :
    ∃ new, (transferAttribs (sampleHost (fun _ => true)) {} sampleDefaults
      (some (Primitive.mk [("Cs", PrimitiveVariable.mk 3 (Data.other 100) none)] none))
      sampleGeo samplePoints samplePrims (Effects.mk [] [])).1.calls = [] ++ new ∧
      ∀ c ∈ new, c.attribute ≠ some "name" :=
  transferAttribs_unnamed (sampleHost (fun _ => true)) {} sampleDefaults
    (some (Primitive.mk [("Cs", PrimitiveVariable.mk 3 (Data.other 100) none)] none))
    sampleGeo samplePoints samplePrims (Effects.mk [] []) rfl
    (by
      intro primitive hp
      cases hp
      exact ⟨rfl, by decide⟩)

/-- C5, what the code does on an invalid UV set: on a primitive whose only variable is a
`V2fVectorData` with UV interpretation and point interpolation which
`isPrimitiveVariableValid` rejects, and whose name matches the filter, the first loop
writes the attribute over the points; only afterwards does the second loop report the
variable as invalid and ignored. -/
theorem transferAttribValues_converts_invalid_uv [Zero F] (h : Host F)
    (self : ToHoudiniGeometryConverter) (geo : GU_Detail) (points prims : GA_Range)
    (vertexInterpolation primitiveInterpolation pointInterpolation detailInterpolation :
      Interpolation)
    (n : String) (uvs : List (F × F)) (indices : Option (List Int))
    (converter : ToHoudiniAttribConverter F)
    (hinvalid : h.isPrimitiveVariableValid
      (Primitive.mk [(n, PrimitiveVariable.mk pointInterpolation
        (Data.V2fVectorData h.UV uvs) indices)] none)
      (PrimitiveVariable.mk pointInterpolation (Data.V2fVectorData h.UV uvs) indices) = false)
    (hmatch : h.multiMatch n self.attributeFilter = true)
    (hcreate : h.create (Data.V3fVectorData h.UV
      ((h.indexedView (PrimitiveVariable.mk pointInterpolation
        (Data.V2fVectorData h.UV uvs) indices)).map (fun uv => (uv.1, uv.2, (0 : F))))) =
        some converter)
    (hthrows : h.throws [] (HostCall.convert n converter n (some points)) = none) :
    transferAttribValues h self
      (Primitive.mk [(n, PrimitiveVariable.mk pointInterpolation
        (Data.V2fVectorData h.UV uvs) indices)] none)
      geo points prims vertexInterpolation primitiveInterpolation pointInterpolation
      detailInterpolation (Effects.mk [] []) =
    (Effects.mk [HostCall.convert n converter n (some points)]
      [Warning.mk "ToHoudiniGeometryConverter"
        ("PrimitiveVariable " ++ n ++ " is invalid. Ignoring.")], none) := by
  simp [transferAttribValues, uvPass, generalPass, forEach, uvPassBody, generalPassBody,
    hinvalid, hmatch, hcreate, hthrows, Effects.record, Effects.warn]

/-- C5, the failing input run on the sample host: the variable uv, rejected as invalid,
is converted all the same. -/
theorem transferAttribValues_converts_invalid_uv_witness :
    transferAttribValues (sampleHost (fun _ => false)) {}
      (Primitive.mk [("uv", PrimitiveVariable.mk 3 (Data.V2fVectorData 5 [(0, 0)]) none)] none)
      sampleGeo samplePoints samplePrims 5 2 3 1 (Effects.mk [] []) =
    (Effects.mk [HostCall.convert "uv"
        (ToHoudiniAttribConverter.mk (Data.V3fVectorData 5 [(0, 0, 0)]) false none) "uv"
        (some samplePoints)]
      [Warning.mk "ToHoudiniGeometryConverter"
        ("PrimitiveVariable " ++ "uv" ++ " is invalid. Ignoring.")], none) :=
  transferAttribValues_converts_invalid_uv (sampleHost (fun _ => false)) {} sampleGeo
    samplePoints samplePrims 5 2 3 1 "uv" [(0, 0)] none
    (ToHoudiniAttribConverter.mk (Data.V3fVectorData 5 [(0, 0, 0)]) false none)
    rfl (by decide) rfl rfl

/-- C6, what the code does on a UV set with invalid interpolation: a valid, filter-matched
`V2fVectorData` with UV interpretation whose interpolation is none of the point, primitive
and vertex interpolations but equals `detailInterpolation` is first reported as ignored
and then written as a detail attribute by the second loop. -/
theorem transferAttribValues_converts_detail_uv [Zero F] (h : Host F)
    (self : ToHoudiniGeometryConverter) (geo : GU_Detail) (points prims : GA_Range)
    (vertexInterpolation primitiveInterpolation pointInterpolation detailInterpolation :
      Interpolation)
    (n : String) (uvs : List (F × F)) (indices : Option (List Int))
    (converter : ToHoudiniAttribConverter F)
    (hpoint : detailInterpolation ≠ pointInterpolation)
    (hprimitive : detailInterpolation ≠ primitiveInterpolation)
    (hvertex : detailInterpolation ≠ vertexInterpolation)
    (hvalid : h.isPrimitiveVariableValid
      (Primitive.mk [(n, PrimitiveVariable.mk detailInterpolation
        (Data.V2fVectorData h.UV uvs) indices)] none)
      (PrimitiveVariable.mk detailInterpolation (Data.V2fVectorData h.UV uvs) indices) = true)
    (hmatch : h.multiMatch n self.attributeFilter = true)
    (hconverter : attribConverter h (PrimitiveVariable.mk detailInterpolation
      (Data.V2fVectorData h.UV uvs) indices) = some converter)
    (hthrows : h.throws [] (HostCall.convert n converter
      (if self.convertStandardAttributes then processPrimitiveVariableName n else n) none) =
        none) :
    transferAttribValues h self
      (Primitive.mk [(n, PrimitiveVariable.mk detailInterpolation
        (Data.V2fVectorData h.UV uvs) indices)] none)
      geo points prims vertexInterpolation primitiveInterpolation pointInterpolation
      detailInterpolation (Effects.mk [] []) =
    (Effects.mk [HostCall.convert n converter
        (if self.convertStandardAttributes then processPrimitiveVariableName n else n) none]
      [Warning.mk "ToHoudiniGeometryConverter"
        ("UV PrimitiveVariable '" ++ n ++ "' has invalid interpolation. Ignoring.")], none) := by
  simp [transferAttribValues, uvPass, generalPass, forEach, uvPassBody, generalPassBody,
    guardedConvert, processPrimitiveVariable, hpoint, hprimitive, hvertex, hvalid, hmatch,
    hconverter, hthrows, Effects.record, Effects.warn]

/-- C6, the failing input run on the sample host with the default interpolations: the
constant UV set uv is written as a detail attribute. -/
theorem transferAttribValues_converts_detail_uv_witness :
    transferAttribValues (sampleHost (fun _ => true)) {}
      (Primitive.mk [("uv", PrimitiveVariable.mk 1 (Data.V2fVectorData 5 [(0, 0)]) none)] none)
      sampleGeo samplePoints samplePrims 5 2 3 1 (Effects.mk [] []) =
    (Effects.mk [HostCall.convert "uv"
        (ToHoudiniAttribConverter.mk (Data.V2fVectorData 5 [(0, 0)]) false none)
        (if ({} : ToHoudiniGeometryConverter).convertStandardAttributes
          then processPrimitiveVariableName "uv" else "uv") none]
      [Warning.mk "ToHoudiniGeometryConverter"
        ("UV PrimitiveVariable '" ++ "uv" ++ "' has invalid interpolation. Ignoring.")], none) :=
  transferAttribValues_converts_detail_uv (sampleHost (fun _ => true)) {} sampleGeo
    samplePoints samplePrims 5 2 3 1 "uv" [(0, 0)] none
    (ToHoudiniAttribConverter.mk (Data.V2fVectorData 5 [(0, 0)]) false none)
    (by decide) (by decide) (by decide) rfl (by decide) rfl rfl

/-- C2, on a registry holding creators for the type ids 10 and 20 and an object of type
30 whose base types are 20 and 10, in that order: the creator of 20 builds the converter. -/
theorem create_dispatch_witness :
    create (RunTimeTyped.mk (fun (object : Nat) => object)
        (fun t => if t = 30 then [20, 10] else []))
      (registerConverter (registerConverter [] 20 (fun _ => some "from 20")) 10
        (fun _ => some "from 10")) 30 = some "from 20" :=
  (create_dispatch (RunTimeTyped.mk (fun (object : Nat) => object)
      (fun t => if t = 30 then [20, 10] else []))
    (registerConverter (registerConverter [] 20 (fun _ => some "from 20")) 10
      (fun _ => some "from 10")) 30).2.1 rfl [] 20 [10] (fun _ => some "from 20") rfl
    (by simp) rfl

/-- C7, refuted as stated. Built against Houdini 14, a valid, filter-matched,
vertex-interpolated variable P with a converter and data that is not `V3fVectorData` is
routed to the point branch and nothing at all is written for it. On a host whose
conversion throws, a valid, filter-matched, vertex-interpolated Cs with a converter is
not written either: the exception of the point branch leaves the function. -/
theorem generalPass_routing_not_written :
    (legacyHost.isPrimitiveVariableValid
        (Primitive.mk [("P", PrimitiveVariable.mk 3 (Data.other 100) none)] none)
        (PrimitiveVariable.mk 3 (Data.other 100) none) = true ∧
      legacyHost.multiMatch "P" "*" = true ∧
      attribConverter legacyHost (PrimitiveVariable.mk 3 (Data.other 100) none) =
        some (ToHoudiniAttribConverter.mk (Data.other 100) false none) ∧
      routedOwner 3 1 3 2 5 = some AttribOwner.point ∧
      generalPass legacyHost
        (Primitive.mk [("P", PrimitiveVariable.mk 3 (Data.other 100) none)] none)
        true "*" samplePoints samplePrims (vertRange sampleGeo samplePrims) 5 2 3 1
        (Effects.mk [] []) = (Effects.mk [] [], none)) ∧
    (throwingHost.isPrimitiveVariableValid
        (Primitive.mk [("Cs", PrimitiveVariable.mk 3 (Data.other 100) none)] none)
        (PrimitiveVariable.mk 3 (Data.other 100) none) = true ∧
      throwingHost.multiMatch "Cs" "*" = true ∧
      attribConverter throwingHost (PrimitiveVariable.mk 3 (Data.other 100) none) =
        some (ToHoudiniAttribConverter.mk (Data.other 100) false none) ∧
      generalPass throwingHost
        (Primitive.mk [("Cs", PrimitiveVariable.mk 3 (Data.other 100) none)] none)
        true "*" samplePoints samplePrims (vertRange sampleGeo samplePrims) 5 2 3 1
        (Effects.mk [] []) =
      (Effects.mk [] [], some (Failure.exception
        "PrimitiveVariable \"Cs\" could not be converted as a Point Attrib: locked"))) := by
  decide

/-- C7, amended. In the second loop of `transferAttribValues`, on every host and in every
build, a valid, filter-matched primitive variable that has a converter is handled as
`expectedRouting` says: one conversion is attempted on the owner chosen by priority
(detail, else point over the points range, else primitive over the prims range, else
vertex over the vertex range); it is the only attribute written when the host call goes
through, and when the call throws nothing is written and an exception naming the variable
and the attribute class is raised; before Houdini 15 a point attribute P is copied into
the point positions instead (or dropped when it is not `V3fVectorData`). Over a primitive
with distinct variable names none of which is such a P, a loop that raises nothing has
made exactly one conversion for each such variable, on the routed owner, and none when
the interpolation is none of the four; on a host whose conversions never throw the loop
raises nothing; a variable with none of the four interpolations gets no attribute and
raises nothing. -/
theorem generalPass_routing (h : Host F) (primitive : Primitive F)
    (convertStandardAttributes : Bool) (attribFilter : String)
    (points prims vertRange : GA_Range)
    (vertexInterpolation primitiveInterpolation pointInterpolation detailInterpolation :
      Interpolation)
    (e : Effects F) :
    (∀ (it : String × PrimitiveVariable F) (e' : Effects F)
      (converter : ToHoudiniAttribConverter F),
      h.isPrimitiveVariableValid primitive it.2 = true →
      h.multiMatch it.1 attribFilter = true →
      attribConverter h it.2 = some converter →
      generalPassBody h primitive convertStandardAttributes attribFilter points prims
        vertRange vertexInterpolation primitiveInterpolation pointInterpolation
        detailInterpolation it e' =
      expectedRouting h convertStandardAttributes points prims vertRange vertexInterpolation
        primitiveInterpolation pointInterpolation detailInterpolation it converter e') ∧
    ((primitive.primitiveVariables.map Prod.fst).Nodup →
      (∀ it ∈ primitive.primitiveVariables, ¬ (h.UT_MAJOR_VERSION_INT < 15 ∧
        (if convertStandardAttributes then processPrimitiveVariableName it.1 else it.1) =
          "P")) →
      (generalPass h primitive convertStandardAttributes attribFilter points prims vertRange
        vertexInterpolation primitiveInterpolation pointInterpolation detailInterpolation
        e).2 = none →
      ∃ new, (generalPass h primitive convertStandardAttributes attribFilter points prims
          vertRange vertexInterpolation primitiveInterpolation pointInterpolation
          detailInterpolation e).1.calls = e.calls ++ new ∧
        ∀ it ∈ primitive.primitiveVariables,
          h.isPrimitiveVariableValid primitive it.2 = true →
          h.multiMatch it.1 attribFilter = true →
          ∀ converter, attribConverter h it.2 = some converter →
          new.filter (HostCall.convertsFor it.1) =
            match routedRange it.2.interpolation detailInterpolation pointInterpolation
              primitiveInterpolation vertexInterpolation points prims vertRange with
            | some range => [HostCall.convert it.1 converter
                (if convertStandardAttributes then processPrimitiveVariableName it.1
                  else it.1) range]
            | none => []) ∧
    ((∀ calls c, h.throws calls c = none) →
      (generalPass h primitive convertStandardAttributes attribFilter points prims vertRange
        vertexInterpolation primitiveInterpolation pointInterpolation detailInterpolation
        e).2 = none) ∧
    (∀ (it : String × PrimitiveVariable F) (e' : Effects F),
      routedRange it.2.interpolation detailInterpolation pointInterpolation
        primitiveInterpolation vertexInterpolation points prims vertRange = none →
      (generalPassBody h primitive convertStandardAttributes attribFilter points prims
        vertRange vertexInterpolation primitiveInterpolation pointInterpolation
        detailInterpolation it e').2 = none ∧
      (generalPassBody h primitive convertStandardAttributes attribFilter points prims
        vertRange vertexInterpolation primitiveInterpolation pointInterpolation
        detailInterpolation it e').1.calls = e'.calls) := by
  refine ⟨?_, ?_, ?_, ?_⟩
  · intro it e' converter hvalid hmatch hconv
    exact generalPassBody_eq_expectedRouting h primitive convertStandardAttributes
      attribFilter points prims vertRange vertexInterpolation primitiveInterpolation
      pointInterpolation detailInterpolation it e' converter hvalid hmatch hconv
  · intro hnodup hmodern hok
    obtain ⟨new, hcalls, -, hroute⟩ := generalPass_forEach_routing h primitive
      convertStandardAttributes attribFilter points prims vertRange vertexInterpolation
      primitiveInterpolation pointInterpolation detailInterpolation
      primitive.primitiveVariables e hmodern hnodup hok
    exact ⟨new, hcalls, hroute⟩
  · intro hquiet
    exact forEach_ok _ (generalPassBody_quiet h primitive convertStandardAttributes
      attribFilter points prims vertRange vertexInterpolation primitiveInterpolation
      pointInterpolation detailInterpolation hquiet) primitive.primitiveVariables e
  · intro it e' hroute
    exact generalPassBody_unrouted h primitive convertStandardAttributes attribFilter points
      prims vertRange vertexInterpolation primitiveInterpolation pointInterpolation
      detailInterpolation it e' hroute

/-- C7 amended, on the sample host with the default interpolations and a primitive holding
a vertex-interpolated Cs, a constant-interpolated id and a varying-interpolated w: the
host never throws, so the loop raises nothing, and Cs is converted once, as Cd, over the
points range. -/
theorem generalPass_routing_witness :
    ∃ new, (generalPass (sampleHost (fun _ => true))
        (Primitive.mk [("Cs", PrimitiveVariable.mk 3 (Data.other 100) none),
          ("id", PrimitiveVariable.mk 1 (Data.other 101) none),
          ("w", PrimitiveVariable.mk 4 (Data.other 102) none)] none)
        true "*" samplePoints samplePrims (vertRange sampleGeo samplePrims) 5 2 3 1
        (Effects.mk [] [])).1.calls = [] ++ new ∧
      new.filter (HostCall.convertsFor "Cs") =
        [HostCall.convert "Cs" (ToHoudiniAttribConverter.mk (Data.other 100) false none) "Cd"
          (some samplePoints)] := by
  have hmain := generalPass_routing (sampleHost (fun _ => true))
    (Primitive.mk [("Cs", PrimitiveVariable.mk 3 (Data.other 100) none),
      ("id", PrimitiveVariable.mk 1 (Data.other 101) none),
      ("w", PrimitiveVariable.mk 4 (Data.other 102) none)] none)
    true "*" samplePoints samplePrims (vertRange sampleGeo samplePrims) 5 2 3 1
    (Effects.mk [] [])
  obtain ⟨new, hcalls, hroute⟩ := hmain.2.1 (by decide) (by decide)
    (hmain.2.2.1 (fun _ _ => rfl))
  exact ⟨new, hcalls, hroute ("Cs", PrimitiveVariable.mk 3 (Data.other 100) none)
    (List.mem_cons_self _ _) rfl (by decide)
    (ToHoudiniAttribConverter.mk (Data.other 100) false none) rfl⟩

end claims

end IECoreHoudini
